import Mathlib

set_option linter.unusedVariables false

/-!
Verification development for the `custom-chatbot` repository.

The `Chatbot` session object of `chatbot.py` is shallowly embedded below:
Python strings are Lean `String`s (lists of characters), Python floats are
modelled as exact rationals `ℚ`, Python dicts (which preserve insertion
order) are association lists, and the `litellm` streaming completion call
is abstracted as a `StreamBehavior` script describing the chunk sequence
the provider returns and whether/when it raises.
-/

namespace ChatbotSpec

/-! ### Python string primitives, modelled on `List Char` -/

/-- Whitespace characters recognised by Python's `str.strip()` (ASCII subset:
space, tab, newline, carriage return, vertical tab, form feed). -/
def wsChar (c : Char) : Bool :=
  c == ' ' || c == '\t' || c == '\n' || c == '\r' || c == '\x0b' || c == '\x0c'

/-- Python `str.strip()` on a character list. -/
def stripChars (l : List Char) : List Char :=
  ((l.dropWhile wsChar).reverse.dropWhile wsChar).reverse

/-- Python `str.strip()`. -/
def pyStrip (s : String) : String := ⟨stripChars s.data⟩

/-- Python `str.lower()` (ASCII model). -/
def pyLower (s : String) : String := ⟨s.data.map Char.toLower⟩

/-- Python `str.startswith(p)` on character lists. -/
def startsWithL (l p : List Char) : Bool := p.isPrefixOf l

/-- Python `str.startswith(p)`. -/
def pyStartsWith (s p : String) : Bool := startsWithL s.data p.data

/-- Python substring containment `sub in l` on character lists. -/
def containsL (l sub : List Char) : Bool := l.tails.any (fun t => sub.isPrefixOf t)

/-- Python substring test `sub in s`. -/
def pyIn (sub s : String) : Bool := containsL s.data sub.data

/-- Split a character list at every occurrence of a single character,
like Python `str.split(sep)` for a one-character separator. The result
is always non-empty. -/
def splitChar (sep : Char) : List Char → List (List Char)
  | [] => [[]]
  | c :: rest =>
    match splitChar sep rest with
    | [] => [[c]]
    | h :: t => if c = sep then [] :: h :: t else (c :: h) :: t

/-- Join character lists with a single-character separator,
like Python `sep.join(...)`. -/
def joinChar (sep : Char) : List (List Char) → List Char
  | [] => []
  | [l] => l
  | l :: ls => l ++ sep :: joinChar sep ls

/-- Fuel-driven worker for `splitSeq`; the fuel always dominates the
length of the remaining input, so the fuel-exhausted branch is only
reached on the empty list (where it agrees with the base case). -/
def splitSeqAux (sep : List Char) : Nat → List Char → List (List Char)
  | 0, l => [l]
  | _ + 1, [] => [[]]
  | fuel + 1, c :: cs =>
    if 0 < sep.length ∧ sep.isPrefixOf (c :: cs) then
      [] :: splitSeqAux sep fuel ((c :: cs).drop sep.length)
    else
      match splitSeqAux sep fuel cs with
      | [] => [[c]]
      | hh :: t => (c :: hh) :: t

/-- Python `str.split(sep)` for a non-empty multi-character separator,
scanning left to right over non-overlapping occurrences. The result is
always non-empty. (Python raises on an empty separator; an empty `sep`
here behaves as "no occurrence", and no call site uses one.) -/
def splitSeq (sep l : List Char) : List (List Char) :=
  splitSeqAux sep l.length l

/-- Python `s.split(sep)` on strings. -/
def pySplit (s sep : String) : List String :=
  (splitSeq sep.data s.data).map (⟨·⟩)

theorem splitChar_ne_nil (sep : Char) (l : List Char) : splitChar sep l ≠ [] := by
  cases l with
  | nil => simp [splitChar]
  | cons c rest =>
    simp only [splitChar]
    cases splitChar sep rest with
    | nil => simp
    | cons h t =>
      by_cases hc : c = sep <;> simp [hc]

theorem splitSeqAux_ne_nil (sep : List Char) :
    ∀ fuel l, splitSeqAux sep fuel l ≠ [] := by
  intro fuel l
  match fuel, l with
  | 0, l => simp [splitSeqAux]
  | _ + 1, [] => simp [splitSeqAux]
  | fuel + 1, c :: cs =>
    rw [splitSeqAux]
    split
    · simp
    · cases h : splitSeqAux sep fuel cs with
      | nil => simp
      | cons hh t => simp

theorem splitSeq_ne_nil (sep : List Char) (l : List Char) : splitSeq sep l ≠ [] :=
  splitSeqAux_ne_nil sep l.length l

theorem splitSeqAux_irrel (sep : List Char) :
    ∀ f₁ f₂ l, l.length ≤ f₁ → l.length ≤ f₂ →
      splitSeqAux sep f₁ l = splitSeqAux sep f₂ l := by
  intro f₁
  induction f₁ with
  | zero =>
    intro f₂ l h1 h2
    have : l = [] := List.length_eq_zero.mp (by omega)
    subst this
    cases f₂ <;> simp [splitSeqAux]
  | succ m ih =>
    intro f₂ l h1 h2
    cases l with
    | nil => cases f₂ <;> simp [splitSeqAux]
    | cons c cs =>
      cases f₂ with
      | zero => simp at h2
      | succ m2 =>
        rw [splitSeqAux, splitSeqAux]
        split
        · rename_i hcond
          have hd : ((c :: cs).drop sep.length).length ≤ m := by
            simp only [List.length_drop, List.length_cons]
            have := hcond.1
            simp only [List.length_cons] at h1
            omega
          have hd2 : ((c :: cs).drop sep.length).length ≤ m2 := by
            simp only [List.length_drop, List.length_cons]
            have := hcond.1
            simp only [List.length_cons] at h2
            omega
          rw [ih m2 _ hd hd2]
        · have hcs : cs.length ≤ m := by
            simp only [List.length_cons] at h1
            omega
          have hcs2 : cs.length ≤ m2 := by
            simp only [List.length_cons] at h2
            omega
          rw [ih m2 cs hcs hcs2]

theorem joinChar_cons_cons (sep : Char) (c : Char) (hh : List Char)
    (t : List (List Char)) :
    joinChar sep ((c :: hh) :: t) = c :: joinChar sep (hh :: t) := by
  cases t <;> simp [joinChar]

theorem joinChar_splitChar (sep : Char) (l : List Char) :
    joinChar sep (splitChar sep l) = l := by
  induction l with
  | nil => simp [splitChar, joinChar]
  | cons c rest ih =>
    simp only [splitChar]
    cases h : splitChar sep rest with
    | nil => exact absurd h (splitChar_ne_nil sep rest)
    | cons hh t =>
      rw [h] at ih
      by_cases hc : c = sep
      · subst hc
        simp only [if_pos rfl]
        cases t <;> simpa [joinChar] using ih
      · simp only [if_neg hc]
        rw [joinChar_cons_cons, ih]

/-- Splitting distributes over an explicit separator occurrence. -/
theorem splitChar_append (sep : Char) (a b : List Char) :
    splitChar sep (a ++ sep :: b) = splitChar sep a ++ splitChar sep b := by
  induction a with
  | nil =>
    simp only [List.nil_append, splitChar]
    cases h : splitChar sep b with
    | nil => exact absurd h (splitChar_ne_nil sep b)
    | cons hh t => simp [splitChar]
  | cons c cs ih =>
    cases h : splitChar sep cs with
    | nil => exact absurd h (splitChar_ne_nil sep cs)
    | cons hh t =>
      rw [h] at ih
      simp only [List.cons_append, splitChar, List.append_eq]
      rw [ih, h]
      by_cases hc : c = sep <;> simp [hc]

/-- Splitting a list without the separator returns the list whole. -/
theorem splitChar_eq_self (sep : Char) (l : List Char) (h : sep ∉ l) :
    splitChar sep l = [l] := by
  induction l with
  | nil => simp [splitChar]
  | cons c cs ih =>
    simp only [List.mem_cons, not_or] at h
    simp [splitChar, ih h.2, Ne.symm h.1]

/-! ### difflib.SequenceMatcher ratio

`chatbot.py` scores fuzzy model matches with
`SequenceMatcher(None, query, name).ratio()`. The ratio is `2*M/T`
where `M` is the total size of the matching blocks found by repeatedly
taking the longest matching block (earliest in `a`, then earliest in `b`,
among the maximal ones) and recursing on both sides, and `T` is the sum
of the two lengths (`1.0` when both are empty). `isjunk` is `None` and
the strings in play are far below the length-200 threshold at which
difflib's autojunk heuristic can engage, so no junk handling is modelled. -/

/-- Fuel-driven worker for `runLen`; the fuel `ahi - i` is exact, so the
zero-fuel branch coincides with the window test failing. -/
def runLenAux (a b : List Char) (ahi bhi : Nat) : Nat → Nat → Nat → Nat
  | 0, _, _ => 0
  | fuel + 1, i, j =>
    if i < ahi ∧ j < bhi ∧ (a.get? i).isSome ∧ a.get? i = b.get? j then
      1 + runLenAux a b ahi bhi fuel (i + 1) (j + 1)
    else 0

/-- Length of the common run of `a` and `b` starting at positions `i`/`j`,
bounded by the half-open windows `[_, ahi)` and `[_, bhi)`. -/
def runLen (a b : List Char) (ahi bhi : Nat) (i j : Nat) : Nat :=
  runLenAux a b ahi bhi (ahi - i) i j

/-- All candidate start positions `(i, j)` with `i ∈ [alo, ahi)` and
`j ∈ [blo, bhi)`, in the row-major order difflib scans them. -/
def candPairs (alo ahi blo bhi : Nat) : List (Nat × Nat) :=
  ((List.range (ahi - alo)).map (alo + ·)).flatMap
    (fun i => ((List.range (bhi - blo)).map (blo + ·)).map (fun j => (i, j)))

/-- The longest matching block of `a[alo:ahi]` and `b[blo:bhi]`: among the
maximal blocks, the one starting earliest in `a`, then earliest in `b`
(difflib `find_longest_match` with no junk). Returns `(i, j, k)`. -/
def bestBlock (a b : List Char) (alo ahi blo bhi : Nat) : Nat × Nat × Nat :=
  (candPairs alo ahi blo bhi).foldl
    (fun best ij =>
      let k := runLen a b ahi bhi ij.1 ij.2
      if best.2.2 < k then (ij.1, ij.2, k) else best)
    (alo, blo, 0)

/-- Total size of all matching blocks of the two windows (difflib
`get_matching_blocks`, summed sizes), computed with a fuel argument that
dominates the `a`-window width. -/
def matchTotal (a b : List Char) : Nat → Nat → Nat → Nat → Nat → Nat
  | 0, _, _, _, _ => 0
  | fuel + 1, alo, ahi, blo, bhi =>
    let ijk := bestBlock a b alo ahi blo bhi
    if ijk.2.2 = 0 then 0
    else
      ijk.2.2 + matchTotal a b fuel alo ijk.1 blo ijk.2.1
              + matchTotal a b fuel (ijk.1 + ijk.2.2) ahi (ijk.2.1 + ijk.2.2) bhi

/-- Total matched characters between `a` and `b`. -/
def smTotal (a b : List Char) : Nat := matchTotal a b a.length 0 a.length 0 b.length

/-- difflib `SequenceMatcher(None, a, b).ratio()`, with Python floats
modelled as exact rationals. -/
def simRatio (a b : List Char) : ℚ :=
  if a.length + b.length = 0 then 1
  else (2 * smTotal a b : ℚ) / (a.length + b.length)

theorem runLenAux_le_left (a b : List Char) (ahi bhi : Nat) :
    ∀ fuel i j, i ≤ ahi → i + runLenAux a b ahi bhi fuel i j ≤ ahi := by
  intro fuel
  induction fuel with
  | zero =>
    intro i j hi
    simpa [runLenAux] using hi
  | succ m ih =>
    intro i j hi
    rw [runLenAux]
    split
    · rename_i hcond
      have := ih (i + 1) (j + 1) (by omega)
      omega
    · omega

theorem runLenAux_le_right (a b : List Char) (ahi bhi : Nat) :
    ∀ fuel i j, j ≤ bhi → j + runLenAux a b ahi bhi fuel i j ≤ bhi := by
  intro fuel
  induction fuel with
  | zero =>
    intro i j hj
    simpa [runLenAux] using hj
  | succ m ih =>
    intro i j hj
    rw [runLenAux]
    split
    · rename_i hcond
      have := ih (i + 1) (j + 1) (by omega)
      omega
    · omega

theorem runLen_le_left (a b : List Char) (ahi bhi : Nat) (i j : Nat)
    (hi : i ≤ ahi) : i + runLen a b ahi bhi i j ≤ ahi :=
  runLenAux_le_left a b ahi bhi (ahi - i) i j hi

theorem runLen_le_right (a b : List Char) (ahi bhi : Nat) (i j : Nat)
    (hj : j ≤ bhi) : j + runLen a b ahi bhi i j ≤ bhi :=
  runLenAux_le_right a b ahi bhi (ahi - i) i j hj

/-- The block returned by `bestBlock` lies inside the two windows. -/
theorem bestBlock_bounds (a b : List Char) (alo ahi blo bhi : Nat)
    (ha : alo ≤ ahi) (hb : blo ≤ bhi) :
    alo ≤ (bestBlock a b alo ahi blo bhi).1 ∧
    (bestBlock a b alo ahi blo bhi).1 + (bestBlock a b alo ahi blo bhi).2.2 ≤ ahi ∧
    blo ≤ (bestBlock a b alo ahi blo bhi).2.1 ∧
    (bestBlock a b alo ahi blo bhi).2.1 + (bestBlock a b alo ahi blo bhi).2.2 ≤ bhi := by
  unfold bestBlock
  have hmem : ∀ ij ∈ candPairs alo ahi blo bhi,
      alo ≤ ij.1 ∧ ij.1 < ahi ∧ blo ≤ ij.2 ∧ ij.2 < bhi := by
    intro ij hij
    simp only [candPairs, List.mem_flatMap, List.mem_map, List.mem_range] at hij
    obtain ⟨i, ⟨r, hr, hri⟩, j, ⟨s, hs, hsj⟩, hij2⟩ := hij
    subst hij2
    simp only
    omega
  generalize hl : candPairs alo ahi blo bhi = l at hmem
  clear hl
  suffices h : ∀ (init : Nat × Nat × Nat),
      alo ≤ init.1 → init.1 + init.2.2 ≤ ahi → blo ≤ init.2.1 → init.2.1 + init.2.2 ≤ bhi →
      alo ≤ (l.foldl (fun best ij =>
          let k := runLen a b ahi bhi ij.1 ij.2
          if best.2.2 < k then (ij.1, ij.2, k) else best) init).1 ∧
      (l.foldl _ init).1 + (l.foldl _ init).2.2 ≤ ahi ∧
      blo ≤ (l.foldl _ init).2.1 ∧
      (l.foldl _ init).2.1 + (l.foldl _ init).2.2 ≤ bhi by
    exact h (alo, blo, 0) (le_refl _) (by show alo + 0 ≤ ahi; omega) (le_refl _)
      (by show blo + 0 ≤ bhi; omega)
  induction l with
  | nil =>
    intro init h1 h2 h3 h4
    exact ⟨h1, h2, h3, h4⟩
  | cons x xs ih =>
    intro init h1 h2 h3 h4
    have hx := hmem x (by simp)
    have hmem' : ∀ ij ∈ xs, alo ≤ ij.1 ∧ ij.1 < ahi ∧ blo ≤ ij.2 ∧ ij.2 < bhi := by
      intro ij hij
      exact hmem ij (by simp [hij])
    simp only [List.foldl_cons]
    by_cases hk : init.2.2 < runLen a b ahi bhi x.1 x.2
    · simp only [hk, if_true]
      refine ih hmem' (x.1, x.2, runLen a b ahi bhi x.1 x.2) hx.1 ?_ hx.2.2.1 ?_
      · exact runLen_le_left a b ahi bhi x.1 x.2 (by omega)
      · exact runLen_le_right a b ahi bhi x.1 x.2 (by omega)
    · simp only [hk, if_false]
      exact ih hmem' init h1 h2 h3 h4

theorem matchTotal_le_left (a b : List Char) :
    ∀ fuel alo ahi blo bhi, alo ≤ ahi → blo ≤ bhi →
      matchTotal a b fuel alo ahi blo bhi ≤ ahi - alo := by
  intro fuel
  induction fuel with
  | zero => intro alo ahi blo bhi ha hb; simp [matchTotal]
  | succ m ih =>
    intro alo ahi blo bhi ha hb
    rw [matchTotal]
    obtain ⟨b1, b2, b3, b4⟩ := bestBlock_bounds a b alo ahi blo bhi ha hb
    split
    · omega
    · rename_i hk
      have hL := ih alo (bestBlock a b alo ahi blo bhi).1 blo
        (bestBlock a b alo ahi blo bhi).2.1 b1 b3
      have hR := ih ((bestBlock a b alo ahi blo bhi).1 + (bestBlock a b alo ahi blo bhi).2.2)
        ahi ((bestBlock a b alo ahi blo bhi).2.1 + (bestBlock a b alo ahi blo bhi).2.2) bhi
        (by omega) (by omega)
      omega

theorem matchTotal_le_right (a b : List Char) :
    ∀ fuel alo ahi blo bhi, alo ≤ ahi → blo ≤ bhi →
      matchTotal a b fuel alo ahi blo bhi ≤ bhi - blo := by
  intro fuel
  induction fuel with
  | zero => intro alo ahi blo bhi ha hb; simp [matchTotal]
  | succ m ih =>
    intro alo ahi blo bhi ha hb
    rw [matchTotal]
    obtain ⟨b1, b2, b3, b4⟩ := bestBlock_bounds a b alo ahi blo bhi ha hb
    split
    · omega
    · rename_i hk
      have hL := ih alo (bestBlock a b alo ahi blo bhi).1 blo
        (bestBlock a b alo ahi blo bhi).2.1 b1 b3
      have hR := ih ((bestBlock a b alo ahi blo bhi).1 + (bestBlock a b alo ahi blo bhi).2.2)
        ahi ((bestBlock a b alo ahi blo bhi).2.1 + (bestBlock a b alo ahi blo bhi).2.2) bhi
        (by omega) (by omega)
      omega

theorem smTotal_le (a b : List Char) :
    smTotal a b ≤ a.length ∧ smTotal a b ≤ b.length := by
  constructor
  · simpa using matchTotal_le_left a b a.length 0 a.length 0 b.length (by omega) (by omega)
  · simpa using matchTotal_le_right a b a.length 0 a.length 0 b.length (by omega) (by omega)

/-- The similarity ratio is non-negative. -/
theorem simRatio_nonneg (a b : List Char) : 0 ≤ simRatio a b := by
  unfold simRatio
  split
  · norm_num
  · rename_i h
    apply div_nonneg
    · positivity
    · positivity

/-- The similarity ratio is at most one. -/
theorem simRatio_le_one (a b : List Char) : simRatio a b ≤ 1 := by
  unfold simRatio
  split
  · norm_num
  · rename_i h
    have hpos : (0 : ℚ) < (a.length : ℚ) + (b.length : ℚ) := by
      have : 0 < a.length + b.length := Nat.pos_of_ne_zero h
      exact_mod_cast this
    rw [div_le_one hpos]
    have ⟨h1, h2⟩ := smTotal_le a b
    have ha1 : (smTotal a b : ℚ) ≤ (a.length : ℚ) := by exact_mod_cast h1
    have hb1 : (smTotal a b : ℚ) ≤ (b.length : ℚ) := by exact_mod_cast h2
    linarith

/-! ### Python number rendering and parsing -/

/-- Fuel-driven worker for `natDigitChars`; any fuel above `n` gives the
digits of `n`. -/
def natDigitsAux : Nat → Nat → List Char
  | 0, _ => []
  | fuel + 1, n =>
    if n < 10 then [Char.ofNat ('0'.toNat + n)]
    else natDigitsAux fuel (n / 10) ++ [Char.ofNat ('0'.toNat + n % 10)]

/-- Decimal digits of a natural number, most significant first
(Python `str(n)` for a non-negative int). -/
def natDigitChars (n : Nat) : List Char := natDigitsAux (n + 1) n

/-- Python `str(n)` for a natural number. -/
def pyNatStr (n : Nat) : String := ⟨natDigitChars n⟩

/-- Value of a string of decimal digits (Python `int(s)` for an
all-digit string). -/
def parseNatDigits (s : String) : Nat :=
  s.data.foldl (fun acc c => acc * 10 + (c.toNat - '0'.toNat)) 0

/-- Python `str.isdigit()` (ASCII model): non-empty and all characters
decimal digits. -/
def isAllDigits (s : String) : Bool :=
  !s.data.isEmpty && s.data.all Char.isDigit

theorem digitChar_isDigit {d : Nat} (h : d < 10) :
    (Char.ofNat ('0'.toNat + d)).isDigit := by
  simp only [Char.isDigit, Char.ofNat, decide_eq_true_eq]
  interval_cases d <;> simp +decide

theorem digitChar_toNat {d : Nat} (h : d < 10) :
    (Char.ofNat ('0'.toNat + d)).toNat = '0'.toNat + d := by
  simp only [Char.ofNat]
  interval_cases d <;> simp +decide

theorem natDigitsAux_digits :
    ∀ fuel n, n < fuel → ∀ c ∈ natDigitsAux fuel n, c.isDigit := by
  intro fuel
  induction fuel with
  | zero => omega
  | succ m ih =>
    intro n hn c hc
    rw [natDigitsAux] at hc
    split at hc
    · rename_i h
      simp only [List.mem_singleton] at hc
      subst hc
      exact digitChar_isDigit h
    · rename_i h
      simp only [List.mem_append, List.mem_singleton] at hc
      rcases hc with hc | hc
      · exact ih (n / 10) (by omega) c hc
      · subst hc
        exact digitChar_isDigit (Nat.mod_lt _ (by omega))

theorem natDigitChars_digits (n : Nat) : ∀ c ∈ natDigitChars n, c.isDigit :=
  natDigitsAux_digits (n + 1) n (by omega)

theorem natDigitChars_ne_nil (n : Nat) : natDigitChars n ≠ [] := by
  rw [natDigitChars, natDigitsAux]
  split <;> simp

theorem isAllDigits_pyNatStr (n : Nat) : isAllDigits (pyNatStr n) = true := by
  simp only [isAllDigits, pyNatStr, Bool.and_eq_true, List.all_eq_true]
  constructor
  · simpa using natDigitChars_ne_nil n
  · exact natDigitChars_digits n

theorem parseNat_append_digit (l : List Char) (c : Char) :
    (List.foldl (fun acc c => acc * 10 + (c.toNat - '0'.toNat)) 0 (l ++ [c])) =
      (List.foldl (fun acc c => acc * 10 + (c.toNat - '0'.toNat)) 0 l) * 10 +
        (c.toNat - '0'.toNat) := by
  rw [List.foldl_append]
  simp

theorem natDigitsAux_parse :
    ∀ fuel n, n < fuel →
      List.foldl (fun acc c => acc * 10 + (c.toNat - '0'.toNat)) 0
        (natDigitsAux fuel n) = n := by
  intro fuel
  induction fuel with
  | zero => omega
  | succ m ih =>
    intro n hn
    rw [natDigitsAux]
    split
    · rename_i h
      simp only [List.foldl_cons, List.foldl_nil]
      have := digitChar_toNat h
      omega
    · rename_i h
      rw [parseNat_append_digit]
      rw [ih (n / 10) (by omega)]
      have := digitChar_toNat (d := n % 10) (Nat.mod_lt _ (by omega))
      omega

theorem parseNatDigits_pyNatStr (n : Nat) : parseNatDigits (pyNatStr n) = n :=
  natDigitsAux_parse (n + 1) n (by omega)

/-- Python `float(s)` restricted to plain decimal literals
(`[+-]? digits [. digits]` or `[+-]? . digits`, surrounding whitespace
stripped). Exponent/inf/nan forms are not modelled; no call site in the
claims uses them. Returns `none` when the string does not parse. -/
def pyFloat (s : String) : Option ℚ :=
  let t := stripChars s.data
  let (sign, u) : ℚ × List Char :=
    match t with
    | '-' :: r => (-1, r)
    | '+' :: r => (1, r)
    | r => (1, r)
  let intPart := u.takeWhile (fun c => c != '.')
  let rest := u.dropWhile (fun c => c != '.')
  if !(intPart.all Char.isDigit) then none
  else
    match rest with
    | [] =>
      if intPart.isEmpty then none
      else some (sign * (parseNatDigits ⟨intPart⟩ : ℚ))
    | _ :: fracDigits =>
      if !(fracDigits.all Char.isDigit) then none
      else if intPart.isEmpty && fracDigits.isEmpty then none
      else
        some (sign * ((parseNatDigits ⟨intPart⟩ : ℚ) +
          (parseNatDigits ⟨fracDigits⟩ : ℚ) / ((10 : ℚ) ^ fracDigits.length)))

/-- Python `int(s)`: optional sign and decimal digits, surrounding
whitespace stripped. -/
def pyInt (s : String) : Option Int :=
  let t := stripChars s.data
  let (sign, u) : Int × List Char :=
    match t with
    | '-' :: r => (-1, r)
    | '+' :: r => (1, r)
    | r => (1, r)
  if u.isEmpty || !(u.all Char.isDigit) then none
  else some (sign * (parseNatDigits ⟨u⟩ : Int))

/-! ### Data model -/

/-- Role of a chat message recorded in the session history. The source
stores roles as the strings `"user"` and `"assistant"`; these are the
only roles ever appended to `conversation_history`. -/
inductive Role where
  | user
  | assistant
deriving DecidableEq

/-- The source's role string. -/
def roleStr : Role → String
  | .user => "user"
  | .assistant => "assistant"

/-- Python `role.capitalize()` applied to a role string. -/
def roleCap : Role → String
  | .user => "User"
  | .assistant => "Assistant"

/-- A chat message (`{"role": ..., "content": ...}`). -/
structure Message where
  role : Role
  content : String
deriving DecidableEq

/-- One entry of `full_conversation_history`: either a role message or
an out-of-band event dict (`model_switch` / `system_prompt_change`). -/
inductive SessionEvent where
  | message (role : Role) (content : String)
  | modelSwitch (model_friendly_name : String)
  | systemPromptChange (new_prompt : String)
deriving DecidableEq

/-- One model entry of `models_config["models"]`. -/
structure ModelInfo where
  litellm_string : String
  provider : String
  description : String
deriving DecidableEq

/-- The sampling parameters held in `llm_params` / `default_llm_params`.
`none` models Python `None`; numeric values are exact rationals. -/
structure LlmParams where
  temperature : Option ℚ
  max_tokens : Option ℚ
  top_p : Option ℚ
  presence_penalty : Option ℚ
  frequency_penalty : Option ℚ
deriving DecidableEq

/-- `default_llm_params` from `Chatbot.__init__`. -/
def default_llm_params : LlmParams :=
  { temperature := some (7 / 10)
    max_tokens := none
    top_p := none
    presence_penalty := some 0
    frequency_penalty := some 0 }

/-- The mutable state of a `Chatbot` instance. Python dicts preserve
insertion order and are modelled as association lists (first binding
wins on lookup). The `model_token_usage` field is read by `main.py`
(`bot.model_token_usage`, `stats['model_token_usage']`) but never
defined in `src/chatbot.py`; it is carried here so the spec-modelled
per-model accounting (see `get_chat_response_stream_spec`) has a home,
and no operation embedded from `src/chatbot.py` touches it. -/
structure Chatbot where
  conversation_history : List Message
  full_conversation_history : List SessionEvent
  system_prompt : String
  active_model_name : Option String
  active_model_friendly : Option String
  models_config : List (String × ModelInfo)
  prompts : List (String × String)
  total_tokens_used : Nat
  model_token_usage : List (String × Nat)
  llm_params : LlmParams
deriving DecidableEq

/-- Python f-string rendering of an `Optional[str]` (`None` prints as
`"None"`). -/
def optStr : Option String → String
  | some s => s
  | none => "None"

/-- Dict lookup in insertion-ordered association lists (Python `d[k]` /
`k in d`). -/
def assocLookup (l : List (String × α)) (k : String) : Option α :=
  (l.find? (fun p => p.1 == k)).map (·.2)

/-- `identifier in self.models_config["models"]` / item access. -/
def lookupModel (c : Chatbot) (id : String) : Option ModelInfo :=
  assocLookup c.models_config id

/-- `list(self.models_config["models"].keys())`. -/
def modelKeys (c : Chatbot) : List String := c.models_config.map (·.1)

theorem lookupModel_isSome_of_mem {c : Chatbot} {k : String}
    (h : k ∈ modelKeys c) : (lookupModel c k).isSome := by
  simp only [modelKeys, List.mem_map] at h
  obtain ⟨p, hp, hk⟩ := h
  have hs : (List.find? (fun p => p.1 == k) c.models_config).isSome := by
    rw [List.find?_isSome]
    exact ⟨p, hp, by simp [hk]⟩
  obtain ⟨q, hq⟩ := Option.isSome_iff_exists.mp hs
  simp [lookupModel, assocLookup, hq]

/-! ### Model resolution: fuzzy matching and `switch_model` -/

/-- Descending comparison on scored candidates, used to model Python's
stable `list.sort(key=lambda x: x[1], reverse=True)`. -/
def scoreGE (x y : String × ℚ) : Prop := y.2 ≤ x.2

instance : DecidableRel scoreGE := fun x y => inferInstanceAs (Decidable (y.2 ≤ x.2))

instance : IsTotal (String × ℚ) scoreGE := ⟨fun a b => le_total b.2 a.2⟩

instance : IsTrans (String × ℚ) scoreGE := ⟨fun _ _ _ hab hbc => le_trans hbc hab⟩

/-- `Chatbot._fuzzy_match_model`: score every catalog key with the
SequenceMatcher ratio of the lowered strings, add `0.3` when the lowered
query is a substring of the lowered key, sort descending by score
(stably), keep scores strictly above `0.4`, and keep at most 5. -/
def fuzzy_match_model (c : Chatbot) (query : String) : List (String × ℚ) :=
  let q := pyLower query
  let scored := c.models_config.map (fun nm =>
    let ratio0 := simRatio (pyLower q).data (pyLower nm.1).data
    (nm.1, if pyIn q (pyLower nm.1) then ratio0 + 3 / 10 else ratio0))
  let sorted := scored.insertionSort scoreGE
  let good := sorted.filter (fun m => (2 : ℚ) / 5 < m.2)
  good.take 5

theorem fuzzy_match_model_mem {c : Chatbot} {query : String} {m : String × ℚ}
    (h : m ∈ fuzzy_match_model c query) : m.1 ∈ modelKeys c := by
  simp only [fuzzy_match_model] at h
  have h1 := List.mem_of_mem_take h
  have h2 := List.mem_of_mem_filter h1
  have h3 := (List.perm_insertionSort scoreGE _).mem_iff.mp h2
  simp only [List.mem_map] at h3
  obtain ⟨nm, hnm, hm⟩ := h3
  simp only [modelKeys, List.mem_map]
  exact ⟨nm, hnm, by rw [← hm]⟩

/-- Result of `Chatbot.switch_model`: the source returns a
`("success", msg)`, `("error", msg)` or `("multiple", matches)` tuple. -/
inductive SwitchResult where
  | success (msg : String)
  | error (msg : String)
  | multiple (cands : List (String × ℚ))
deriving DecidableEq

/-- `Chatbot.switch_model`: exact key match first (recording a
`model_switch` event), then the all-digits 1-based index path, then
fuzzy matching; a unique fuzzy survivor recurses into its key, which is
guaranteed to hit the exact branch. -/
def switch_model (c : Chatbot) (id : String) : SwitchResult × Chatbot :=
  match hL : lookupModel c id with
  | some info =>
    (.success ("Switched to: " ++ id ++ " (" ++ info.provider ++ ")"),
     { c with
        active_model_name := some info.litellm_string
        active_model_friendly := some id
        full_conversation_history :=
          c.full_conversation_history ++ [.modelSwitch id] })
  | none =>
    if isAllDigits id then
      if hR : 0 ≤ (parseNatDigits id : Int) - 1 ∧
          (parseNatDigits id : Int) - 1 < (modelKeys c).length then
        switch_model c
          ((modelKeys c).get ⟨((parseNatDigits id : Int) - 1).toNat, by omega⟩)
      else
        (.error ("Invalid model number. Use 1-" ++ pyNatStr (modelKeys c).length), c)
    else
      match hF : fuzzy_match_model c id with
      | [] => (.error ("No models found matching '" ++ id ++ "'"), c)
      | [m] => switch_model c m.1
      | ms => (.multiple ms, c)
  termination_by (if (lookupModel c id).isSome then 0 else 1)
  decreasing_by
  · have hlen : parseNatDigits id - 1 < (modelKeys c).length := by omega
    have hmem : (modelKeys c)[parseNatDigits id - 1] ∈ modelKeys c :=
      List.getElem_mem hlen
    have hsome := lookupModel_isSome_of_mem hmem
    simp only [hL]
    simp_all
  · have hmem : m ∈ fuzzy_match_model c id := by
      rw [hF]
      simp
    have hsome := lookupModel_isSome_of_mem (fuzzy_match_model_mem hmem)
    simp only [hL]
    simp_all

/-! ### Session operations -/

/-- Result tuple tag used by several `Chatbot` methods
(`("success", msg)` / `("warning", msg)` / `("error", msg)`). -/
inductive OpResult where
  | success (msg : String)
  | warning (msg : String)
  | error (msg : String)
deriving DecidableEq

/-- `Chatbot.start_new_chat`: clear both histories and the token
counter. -/
def start_new_chat (c : Chatbot) : String × Chatbot :=
  ("New chat session started.",
   { c with
      conversation_history := []
      full_conversation_history := []
      total_tokens_used := 0 })

/-- `Chatbot.set_system_prompt`: resolve an alias (or use the argument
verbatim), record a `system_prompt_change` event on the old session's
log, then clear the session via `start_new_chat`. -/
def set_system_prompt (c : Chatbot) (prompt_or_alias : String) : String × Chatbot :=
  let looked := assocLookup c.prompts prompt_or_alias
  let prompt_text := match looked with
    | some t => t
    | none => prompt_or_alias
  let message := match looked with
    | some _ => "System prompt set from alias: '" ++ prompt_or_alias ++ "'."
    | none => "System prompt updated."
  let c1 := { c with system_prompt := prompt_text }
  let c2 := { c1 with
    full_conversation_history :=
      c1.full_conversation_history ++ [.systemPromptChange prompt_text] }
  (message, (start_new_chat c2).2)

/-- `Chatbot.add_prompt`. `save_ok` models whether the
`_save_prompts()` write to `prompts.json` succeeds; on failure the
in-memory insertion is reverted. -/
def add_prompt (c : Chatbot) (aliasName text : String) (save_ok : Bool) :
    OpResult × Chatbot :=
  if aliasName = "" ∨ text = "" then
    (.error "Alias and prompt text cannot be empty.", c)
  else if ' ' ∈ aliasName.data then
    (.error "Alias cannot contain spaces.", c)
  else if (assocLookup c.prompts aliasName).isSome then
    (.warning ("Alias '" ++ aliasName ++ "' already exists. Overwriting."), c)
  else
    let c1 := { c with prompts := c.prompts ++ [(aliasName, text)] }
    if save_ok then (.success ("Prompt '" ++ aliasName ++ "' saved."), c1)
    else (.error "Failed to save prompt to prompts.json.", c)

/-- Validator table of `Chatbot.set_llm_param`:
`(is float typed, lower bound, upper bound)`, `none` meaning the key is
not a parameter. -/
def paramValidator (p : String) : Option (Bool × Option ℚ × Option ℚ) :=
  if p = "temperature" then some (true, some 0, some 2)
  else if p = "max_tokens" then some (false, some 1, none)
  else if p = "top_p" then some (true, some 0, some 1)
  else if p = "presence_penalty" then some (true, some (-2), some 2)
  else if p = "frequency_penalty" then some (true, some (-2), some 2)
  else none

/-- The default value of a parameter (`default_llm_params[p]`). -/
def paramDefault (p : String) : Option ℚ :=
  if p = "temperature" then default_llm_params.temperature
  else if p = "max_tokens" then default_llm_params.max_tokens
  else if p = "top_p" then default_llm_params.top_p
  else if p = "presence_penalty" then default_llm_params.presence_penalty
  else if p = "frequency_penalty" then default_llm_params.frequency_penalty
  else none

/-- Store a value into the named field of `llm_params`
(`self.llm_params[param_name] = v`); unknown names leave the record
unchanged (the source only reaches this after the membership check). -/
def setParamField (ps : LlmParams) (p : String) (v : Option ℚ) : LlmParams :=
  if p = "temperature" then { ps with temperature := v }
  else if p = "max_tokens" then { ps with max_tokens := v }
  else if p = "top_p" then { ps with top_p := v }
  else if p = "presence_penalty" then { ps with presence_penalty := v }
  else if p = "frequency_penalty" then { ps with frequency_penalty := v }
  else ps

/-- Read the named field of `llm_params`. -/
def getParamField (ps : LlmParams) (p : String) : Option ℚ :=
  if p = "temperature" then ps.temperature
  else if p = "max_tokens" then ps.max_tokens
  else if p = "top_p" then ps.top_p
  else if p = "presence_penalty" then ps.presence_penalty
  else if p = "frequency_penalty" then ps.frequency_penalty
  else none

/-- Zero-padded fraction digits (at most trailing-zero-stripped) used by
`pyNumRepr`. -/
def fracDigitsRepr (scaled k : Nat) : String :=
  let padded := (natDigitChars (10 ^ k + scaled % 10 ^ k)).drop 1
  let stripped := (padded.reverse.dropWhile (· == '0')).reverse
  if stripped.isEmpty then "0" else ⟨stripped⟩

/-- Rendering of a numeric parameter value inside a result message
(Python `f"{value}"`): exact decimal expansion for float-typed values,
plain decimal for int-typed ones. Only user-facing message text uses
this; no claim depends on its output. -/
def pyNumRepr (isFloat : Bool) (v : ℚ) : String :=
  let sign := if v < 0 then "-" else ""
  let a : ℚ := |v|
  let n := a.num.toNat
  let d := a.den
  if isFloat then
    match (List.range 31).find? (fun k => (10 ^ k) % d == 0) with
    | some k =>
      let scaled := n * ((10 ^ k) / d)
      sign ++ pyNatStr (scaled / 10 ^ k) ++ "." ++ fracDigitsRepr scaled k
    | none => sign ++ pyNatStr n ++ "/" ++ pyNatStr d
  else sign ++ pyNatStr n

/-- `Chatbot.set_llm_param`: lower the name, reject unknown parameters,
honour `none`/`default` resets, parse by declared type, check the
closed range, and only then store. -/
def set_llm_param (c : Chatbot) (param_name value_str : String) :
    OpResult × Chatbot :=
  let p := pyLower param_name
  match paramValidator p with
  | none => (.error ("Unknown parameter: '" ++ p ++ "'."), c)
  | some (isFloat, minv, maxv) =>
    if pyLower value_str = "none" ∨ pyLower value_str = "default" then
      (.success ("Reset " ++ p ++ " to its default value."),
       { c with llm_params := setParamField c.llm_params p (paramDefault p) })
    else
      let parsed : Option ℚ :=
        if isFloat then pyFloat value_str else (pyInt value_str).map (fun z => (z : ℚ))
      match parsed with
      | none =>
        (.error ("Invalid value type for " ++ p ++ ". Expected " ++
          (if isFloat then "float" else "int") ++ "."), c)
      | some v =>
        if (match minv with | some mn => decide (v < mn) | none => false) then
          (.error (p ++ " must be at least " ++
            pyNumRepr isFloat (minv.getD 0) ++ "."), c)
        else if (match maxv with | some mx => decide (mx < v) | none => false) then
          (.error (p ++ " must be no more than " ++
            pyNumRepr isFloat (maxv.getD 0) ++ "."), c)
        else
          (.success ("Set " ++ p ++ " to " ++ pyNumRepr isFloat v ++ "."),
           { c with llm_params := setParamField c.llm_params p (some v) })

/-! ### The streaming turn -/

/-- `Chatbot._format_error`: classify a provider error by lowercase
substring sniffing. -/
def format_error (e : String) : String :=
  let es := pyLower e
  if pyIn "api key" es || pyIn "authentication" es then
    "API key is missing or invalid. Check your .env file."
  else if pyIn "rate limit" es then
    "Rate limit exceeded. Please wait a moment and try again."
  else if pyIn "timeout" es || pyIn "connection" es then
    "Connection timeout. Check your internet connection."
  else if pyIn "not found" es || pyIn "404" es then
    "Model not found. The model may have been deprecated."
  else e

/-- An event yielded to the caller by the streaming turn generator. -/
inductive ChatEvent where
  | content (text : String)
  | error (msg : String)
deriving DecidableEq

/-- Script of one external `litellm.completion(..., stream=True)` call:
either the stream completes, yielding chunks whose delta contents are
the given strings (`""` modelling an empty/absent delta) and a final
usage record, or it raises after yielding some chunks. -/
inductive StreamBehavior where
  | completes (chunks : List String) (usage : Option Nat)
  | raises (chunksBefore : List String) (errMsg : String)
deriving DecidableEq

/-- The Python error text raised when `chunk` is read after a loop over
an empty stream (`UnboundLocalError`, CPython 3.11 wording; earlier
versions word it differently, and either text falls through
`_format_error` unchanged). -/
def emptyStreamError : String :=
  "cannot access local variable 'chunk' where it is not associated with a value"

/-- `Chatbot.get_chat_response_stream`, with the provider call
abstracted by a `StreamBehavior` script. Returns the events yielded to
the caller, in order, together with the post-call state. On any raise
the `except` branch yields one classified error event and no state was
mutated; on completion of a non-empty stream the token counter and both
histories are updated; completing an empty stream hits the unbound
`chunk` read, which raises and is caught like any other failure. -/
def get_chat_response_stream (c : Chatbot) (user_prompt : String)
    (stream : StreamBehavior) : List ChatEvent × Chatbot :=
  if c.active_model_name.isNone then
    ([.error "No model is currently active."], c)
  else
    match stream with
    | .raises pre msg =>
      ((pre.filter (fun t => t != "")).map ChatEvent.content ++
        [.error (format_error msg)], c)
    | .completes chunks usage =>
      match chunks with
      | [] => ([.error (format_error emptyStreamError)], c)
      | _ =>
        let response_text := String.join chunks
        ((chunks.filter (fun t => t != "")).map ChatEvent.content,
         { c with
            total_tokens_used := c.total_tokens_used + usage.getD 0
            conversation_history := c.conversation_history ++
              [⟨.user, user_prompt⟩, ⟨.assistant, response_text⟩]
            full_conversation_history := c.full_conversation_history ++
              [.message .user user_prompt, .message .assistant response_text] })

/-- Add `v` to the per-model usage map entry for `k`, creating it when
absent. -/
def bumpUsage (m : List (String × Nat)) (k : String) (v : Nat) :
    List (String × Nat) :=
  match assocLookup m k with
  | some _ => m.map (fun p => if p.1 == k then (p.1, p.2 + v) else p)
  | none => m ++ [(k, v)]

/-- Modelled from the spec: the per-model token accounting of the
streaming turn. `src/main.py` reads `bot.model_token_usage` and
`stats['model_token_usage']`, but no code in `src/chatbot.py` defines or
updates that map; the variant of the turn that maintains it is not under
`src/`. Per spec §4.4 step 5, on stream exhaustion with a usage record
the turn adds `totalTokens` both to the session-global counter (which
the `src/chatbot.py` turn already does) and to the per-active-model-name
map, keyed by friendly model name and summed across switches. -/
def get_chat_response_stream_spec (c : Chatbot) (user_prompt : String)
    (stream : StreamBehavior) : List ChatEvent × Chatbot :=
  let r := get_chat_response_stream c user_prompt stream
  if c.active_model_name.isNone then r
  else
    match stream with
    | .completes chunks (some u) =>
      match chunks with
      | [] => r
      | _ =>
        (r.1, { r.2 with
          model_token_usage :=
            bumpUsage r.2.model_token_usage (optStr c.active_model_friendly) u })
    | _ => r

/-! ### History invariant -/

/-- `[msg for msg in events if 'role' in msg]` as a list of messages. -/
def rolesOf (events : List SessionEvent) : List Message :=
  events.filterMap (fun e =>
    match e with
    | .message r cnt => some ⟨r, cnt⟩
    | _ => none)

/-- The documented invariant: the role-filtered message list is the
role projection of the full event log. -/
def historyInvariant (c : Chatbot) : Prop :=
  c.conversation_history = rolesOf c.full_conversation_history

/-! ### Conversation persistence -/

/-- Lines of a file text under Python `readlines`. Each Python line
keeps its trailing `'\n'`; the embedding drops the terminators, which
is observationally equal for `load_conversation` because header lines
are only examined via `startswith`/`strip()` and body lines are
`rstrip('\n')`-ed before use. -/
def fileLines (t : List Char) : List (List Char) :=
  let segs := splitChar '\n' t
  if segs.getLast? = some [] then segs.dropLast else segs

/-- The text written to the file for one entry of the full log
(the body loop of `save_conversation`; `system_prompt_change` events
match neither branch and are skipped). -/
def eventText (e : SessionEvent) : String :=
  match e with
  | .modelSwitch n => "**System: Switched to model: " ++ n ++ "**\n\n"
  | .message r cnt => "## " ++ roleCap r ++ "\n\n" ++ cnt ++ "\n\n"
  | .systemPromptChange _ => ""

/-- The full text written by `save_conversation`, with the current
time rendered as `dateStr`. -/
def saveText (c : Chatbot) (dateStr : String) : String :=
  "# Chat Conversation\n\n" ++
  "**Date:** " ++ dateStr ++ "\n" ++
  "**Model:** " ++ optStr c.active_model_friendly ++ " (" ++
    optStr c.active_model_name ++ ")\n" ++
  "**System Prompt:** " ++ c.system_prompt ++ "\n" ++
  (if 0 < c.total_tokens_used then
    "**Total Tokens:** " ++ pyNatStr c.total_tokens_used ++ "\n" else "") ++
  "\n---\n\n" ++
  String.join (c.full_conversation_history.map eventText)

/-- Result of `save_conversation`: the empty-log refusal, or the
document written to disk (file naming and the I/O itself are outside
the model; an I/O exception would produce an error tuple without
touching session state). -/
inductive SaveResult where
  | warning (msg : String)
  | written (lines : List (List Char)) (msg : String)
deriving DecidableEq

/-- `Chatbot.save_conversation`: refuse when the full log is empty,
otherwise write the whole document. -/
def save_conversation (c : Chatbot) (dateStr : String) : SaveResult :=
  if c.full_conversation_history.isEmpty then
    .warning "No conversation to save."
  else
    .written (fileLines (saveText c dateStr).data) "Conversation saved."

/-- Tag check for a save result. -/
def SaveResult.isWritten : SaveResult → Bool
  | .written _ _ => true
  | .warning _ => false

/-- The lines of a written save result (empty for the refusal). -/
def SaveResult.linesOf : SaveResult → List (List Char)
  | .written ls _ => ls
  | .warning _ => []

/-- Split the read lines into header and body at the first line whose
`strip()` is `'---'` (that line is consumed), per the `in_header` loop
of `load_conversation`. -/
def splitHeader : List (List Char) → List (List Char) × List (List Char)
  | [] => ([], [])
  | l :: rest =>
    if stripChars l = "---".data then ([], rest)
    else
      let hb := splitHeader rest
      (l :: hb.1, hb.2)

/-- Header scan of `load_conversation`: recover the system prompt text
and the first whitespace-token after the `**Model:**` label (the last
occurrence of each wins, as in the source's loop). -/
def headerScan (ls : List (List Char)) : Option (List Char) × Option (List Char) :=
  ls.foldl
    (fun acc l =>
      if startsWithL l "**System Prompt:**".data then
        (some (stripChars (l.drop "**System Prompt:**".length)), acc.2)
      else if startsWithL l "**Model:**".data then
        (acc.1,
         some ((stripChars (l.drop "**Model:**".length)).takeWhile (fun ch => ch != ' ')))
      else acc)
    (none, none)

/-- `append_message` of `load_conversation`: flush the accumulated
message, skipped when no role is current, the accumulator is empty, or
the joined content strips to nothing. -/
def flushMessage (role : Option Role) (content : List (List Char)) :
    List SessionEvent :=
  match role with
  | some r =>
    if content ≠ [] ∧ stripChars (joinChar '\n' content) ≠ [] then
      [.message r ⟨stripChars (joinChar '\n' content)⟩]
    else []
  | none => []

/-- The body loop of `load_conversation`: heading lines start a new
message (flushing the previous one), a model-switch marker flushes and
injects a `model_switch` event, and other lines accumulate under the
current role. A line that passes the marker `startswith` test but does
not contain the space-terminated marker prefix makes
`line.split('**System: Switched to model: ')[1]` raise `IndexError`
after the flush; the `true` flag models that abort. -/
def processBody : List (List Char) → Option Role → List (List Char) →
    List SessionEvent × Option Role × List (List Char) × Bool
  | [], role, content => ([], role, content, false)
  | l :: rest, role, content =>
    if startsWithL l "## User".data then
      let r := processBody rest (some .user) []
      (flushMessage role content ++ r.1, r.2)
    else if startsWithL l "## Assistant".data then
      let r := processBody rest (some .assistant) []
      (flushMessage role content ++ r.1, r.2)
    else if startsWithL l "**System: Switched to model:".data then
      match splitSeq "**System: Switched to model: ".data l with
      | _ :: seg :: _ =>
        let nm := (splitSeq "**".data seg).headD []
        let r := processBody rest none []
        (flushMessage role content ++ [.modelSwitch ⟨nm⟩] ++ r.1, r.2)
      | _ =>
        (flushMessage role content, none, [], true)
    else if role.isSome then
      processBody rest role (content ++ [l])
    else
      processBody rest role content

/-- `Chatbot.load_conversation`, file I/O abstracted: takes the lines
of an existing file. Resets the session first, applies the header
(system prompt, and a `switch_model` on the recovered name when it is
non-empty — a failed switch is tolerated), then parses the body. On the
body's `IndexError` path the partially rebuilt log is kept and
`conversation_history` is not rebuilt, exactly as in the source's
`except` return. -/
def load_conversation (c : Chatbot) (lines : List (List Char)) :
    OpResult × Chatbot :=
  let c1 := (start_new_chat c).2
  let hb := splitHeader lines
  let info := headerScan hb.1
  let c2 := match info.1 with
    | some s => { c1 with system_prompt := ⟨s⟩ }
    | none => c1
  let c3 := match info.2 with
    | some nm => if nm ≠ [] then (switch_model c2 ⟨nm⟩).2 else c2
    | none => c2
  let r := processBody hb.2 none []
  if r.2.2.2 then
    (.error "Error loading conversation: list index out of range",
     { c3 with full_conversation_history := c3.full_conversation_history ++ r.1 })
  else
    let full := c3.full_conversation_history ++ r.1 ++ flushMessage r.2.1 r.2.2.1
    (.success ("Loaded conversation (" ++ pyNatStr (rolesOf full).length ++
      " messages)"),
     { c3 with
        full_conversation_history := full
        conversation_history := rolesOf full })

/-! ### String lemmas for the persistence proofs -/

theorem stripChars_cons_ws {ch : Char} (l : List Char) (h : wsChar ch = true) :
    stripChars (ch :: l) = stripChars l := by
  simp [stripChars, List.dropWhile_cons, h]

theorem stripChars_append_nl (l : List Char) :
    stripChars (l ++ ['\n']) = stripChars l := by
  unfold stripChars
  rw [List.dropWhile_append]
  split
  · rename_i hemp
    have : l.dropWhile wsChar = [] := by simpa using hemp
    simp [this, wsChar]
  · rename_i hemp
    rw [List.reverse_append]
    simp only [List.reverse_cons, List.reverse_nil, List.nil_append,
      List.singleton_append]
    rw [List.dropWhile_cons]
    simp [wsChar]

theorem stripChars_wrap_nl (l : List Char) :
    stripChars ('\n' :: (l ++ ['\n'])) = stripChars l := by
  rw [stripChars_cons_ws _ (by decide), stripChars_append_nl]

theorem stripChars_eq_self_of (l : List Char)
    (h1 : ∀ ch, l.head? = some ch → wsChar ch = false)
    (h2 : ∀ ch, l.getLast? = some ch → wsChar ch = false) :
    stripChars l = l := by
  cases hl : l with
  | nil => rfl
  | cons c t =>
    unfold stripChars
    have hc : wsChar c = false := h1 c (by rw [hl]; rfl)
    rw [← hl]
    have hdrop : l.dropWhile wsChar = l := by
      rw [hl, List.dropWhile_cons, hc]
      simp
    rw [hdrop]
    cases hrl : l.reverse with
    | nil =>
      exact absurd (List.reverse_eq_nil_iff.mp hrl) (by rw [hl]; simp)
    | cons d u =>
      have hd : wsChar d = false := by
        apply h2 d
        rw [← List.head?_reverse, hrl]
        rfl
      rw [List.dropWhile_cons, hd]
      simp only [Bool.false_eq_true, if_false]
      rw [show d :: u = l.reverse from hrl.symm, List.reverse_reverse]

theorem startsWithL_nil_false {p : List Char} (h : p ≠ []) :
    startsWithL [] p = false := by
  cases p with
  | nil => exact absurd rfl h
  | cons a as => rfl

theorem startsWithL_append_true {a x p : List Char}
    (h : startsWithL a p = true) : startsWithL (a ++ x) p = true := by
  simp only [startsWithL, List.isPrefixOf_iff_prefix] at h ⊢
  exact h.trans (List.prefix_append a x)

theorem startsWithL_append_false {a x p : List Char}
    (h1 : startsWithL a p = false) (h2 : startsWithL p a = false) :
    startsWithL (a ++ x) p = false := by
  by_contra hcon
  rw [Bool.not_eq_false, startsWithL, List.isPrefixOf_iff_prefix] at hcon
  rcases List.prefix_or_prefix_of_prefix hcon (List.prefix_append a x) with h | h
  · rw [startsWithL] at h1
    exact absurd (List.isPrefixOf_iff_prefix.mpr h) (by rw [h1]; simp)
  · rw [startsWithL] at h2
    exact absurd (List.isPrefixOf_iff_prefix.mpr h) (by rw [h2]; simp)

theorem takeWhile_until_space (f rest : List Char)
    (hf : ∀ ch ∈ f, wsChar ch = false) :
    (f ++ ' ' :: rest).takeWhile (fun ch => ch != ' ') = f := by
  rw [List.takeWhile_append_of_pos]
  · rw [List.takeWhile_cons]
    simp
  · intro a ha
    have := hf a ha
    simp only [wsChar] at this
    simp only [bne_iff_ne, ne_eq]
    intro hasp
    rw [hasp] at this
    simp at this

theorem splitSeq_cons_prefix (sep rest : List Char) (h : 0 < sep.length) :
    splitSeq sep (sep ++ rest) = [] :: splitSeq sep rest := by
  unfold splitSeq
  cases hsep : sep with
  | nil =>
    rw [hsep] at h
    simp at h
  | cons s ss =>
    have hpre : (s :: ss).isPrefixOf ((s :: ss) ++ rest) = true := by
      rw [List.isPrefixOf_iff_prefix]
      exact List.prefix_append _ _
    show splitSeqAux (s :: ss) (((s :: ss) ++ rest).length) ((s :: ss) ++ rest) =
      [] :: splitSeqAux (s :: ss) rest.length rest
    have hlen : ((s :: ss) ++ rest).length = (ss ++ rest).length + 1 := by
      simp
    rw [hlen]
    show (if 0 < (s :: ss).length ∧ (s :: ss).isPrefixOf (s :: (ss ++ rest)) then
        [] :: splitSeqAux (s :: ss) (ss ++ rest).length
          ((s :: (ss ++ rest)).drop (s :: ss).length)
      else
        match splitSeqAux (s :: ss) (ss ++ rest).length (ss ++ rest) with
        | [] => [[s]]
        | hh :: t => (s :: hh) :: t) =
      [] :: splitSeqAux (s :: ss) rest.length rest
    rw [if_pos ⟨by simp, by simpa using hpre⟩]
    have hdrop : (s :: (ss ++ rest)).drop (s :: ss).length = rest := by
      have : s :: (ss ++ rest) = (s :: ss) ++ rest := by simp
      rw [this, List.drop_left]
    rw [hdrop]
    congr 1
    apply splitSeqAux_irrel
    · simp
    · exact le_refl _

theorem fileLines_append (a b : List Char) :
    fileLines (a ++ '\n' :: b) = splitChar '\n' a ++ fileLines b := by
  simp only [fileLines]
  rw [splitChar_append]
  have hb := splitChar_ne_nil '\n' b
  rw [List.getLast?_append]
  cases hgb : (splitChar '\n' b).getLast? with
  | none =>
    exact absurd (List.getLast?_eq_none_iff.mp hgb) hb
  | some y =>
    simp only [Option.or_some]
    by_cases hy : y = []
    · subst hy
      rw [if_pos rfl, if_pos rfl, List.dropLast_append_of_ne_nil _ hb]
    · rw [if_neg (by simpa using hy), if_neg (by simpa using hy)]

theorem fileLines_nil : fileLines [] = [] := by
  rfl

theorem fileLines_flatten (chunks : List (List Char)) :
    fileLines ((chunks.map (fun l => l ++ ['\n'])).flatten) =
      chunks.flatMap (splitChar '\n') := by
  induction chunks with
  | nil => rfl
  | cons ch rest ih =>
    simp only [List.map_cons, List.flatten_cons, List.flatMap_cons]
    have : (ch ++ ['\n']) ++ ((rest.map (fun l => l ++ ['\n'])).flatten) =
        ch ++ '\n' :: ((rest.map (fun l => l ++ ['\n'])).flatten) := by
      simp
    rw [this, fileLines_append, ih]

theorem String_join_data_aux (ls : List String) :
    ∀ acc : String, (List.foldl (fun r s => r ++ s) acc ls).data =
      acc.data ++ (ls.map String.data).flatten := by
  induction ls with
  | nil => intro acc; simp
  | cons s rest ih =>
    intro acc
    simp only [List.foldl_cons, List.map_cons, List.flatten_cons]
    rw [ih (acc ++ s)]
    simp

theorem String_join_data (ls : List String) :
    (String.join ls).data = (ls.map String.data).flatten := by
  unfold String.join
  rw [String_join_data_aux]
  rfl

theorem joinChar_append_last (sep : Char) (y : List Char) :
    ∀ xs : List (List Char), xs ≠ [] →
      joinChar sep (xs ++ [y]) = joinChar sep xs ++ sep :: y := by
  intro xs
  induction xs with
  | nil => intro h; exact absurd rfl h
  | cons a as ih =>
    intro _
    cases has : as with
    | nil => simp [joinChar]
    | cons b bs =>
      rw [← has]
      have hne : as ≠ [] := by rw [has]; simp
      have h1 : joinChar sep ((a :: as) ++ [y]) =
          a ++ sep :: joinChar sep (as ++ [y]) := by
        rw [List.cons_append]
        cases hbs : as ++ [y] with
        | nil => simp at hbs
        | cons u us => rfl
      rw [h1, ih hne]
      have h2 : joinChar sep (a :: as) = a ++ sep :: joinChar sep as := by
        rw [has]
        rfl
      rw [h2]
      simp

theorem rolesOf_append (a b : List SessionEvent) :
    rolesOf (a ++ b) = rolesOf a ++ rolesOf b := by
  simp [rolesOf]

/-! ### Round-trip well-formedness and line characterisations -/

/-- Content of a logged message that survives the markdown round trip:
non-empty, equal to its own strip, and no line of it starts a role
heading or a model-switch marker. -/
def contentWF (cnt : String) : Prop :=
  cnt ≠ "" ∧ stripChars cnt.data = cnt.data ∧
  ∀ l ∈ splitChar '\n' cnt.data,
    startsWithL l "## User".data = false ∧
    startsWithL l "## Assistant".data = false ∧
    startsWithL l "**System: Switched to model:".data = false

/-- Well-formedness of one logged event for the round trip. -/
def eventWF : SessionEvent → Prop
  | .message _ cnt => contentWF cnt
  | .modelSwitch m => '\n' ∉ m.data
  | .systemPromptChange _ => True

/-- The `'\n'`-terminated chunks whose concatenation is `saveText`. -/
def eventChunks : SessionEvent → List (List Char)
  | .modelSwitch m => [("**System: Switched to model: " ++ m ++ "**").data, []]
  | .message r cnt => [("## " ++ roleCap r).data, [], cnt.data, []]
  | .systemPromptChange _ => []

/-- All `'\n'`-terminated chunks of the saved document. -/
def saveChunks (c : Chatbot) (d : String) : List (List Char) :=
  ["# Chat Conversation".data, [],
   ("**Date:** " ++ d).data,
   ("**Model:** " ++ optStr c.active_model_friendly ++ " (" ++
     optStr c.active_model_name ++ ")").data,
   ("**System Prompt:** " ++ c.system_prompt).data] ++
  (if 0 < c.total_tokens_used then
    [("**Total Tokens:** " ++ pyNatStr c.total_tokens_used).data] else []) ++
  [[], "---".data, []] ++
  c.full_conversation_history.flatMap eventChunks

/-- The lines contributed to the file body by one event. -/
def blockL : SessionEvent → List (List Char)
  | .modelSwitch m => [("**System: Switched to model: " ++ m ++ "**").data, []]
  | .message r cnt =>
    [("## " ++ roleCap r).data, []] ++ splitChar '\n' cnt.data ++ [[]]
  | .systemPromptChange _ => []

/-- The pending message the body parser holds between blocks. -/
def flushP : Option (Role × String) → List SessionEvent
  | some rc => [.message rc.1 rc.2]
  | none => []

/-- The parser's `current_content` accumulator corresponding to a
pending message. -/
def pendContent : Option (Role × String) → List (List Char)
  | some rc => [[]] ++ splitChar '\n' rc.2.data ++ [[]]
  | none => []

/-- Well-formedness of a pending message. -/
def pendWF : Option (Role × String) → Prop
  | some rc => contentWF rc.2
  | none => True

theorem eventText_data (e : SessionEvent) :
    (eventText e).data = ((eventChunks e).map (fun l => l ++ ['\n'])).flatten := by
  have hnl : ("\n\n" : String).data = ['\n', '\n'] := rfl
  cases e with
  | modelSwitch m =>
    simp [eventText, eventChunks, String.data_append, hnl]
  | message r cnt =>
    simp [eventText, eventChunks, String.data_append, hnl]
  | systemPromptChange t =>
    rfl

theorem join_eventText_data (es : List SessionEvent) :
    (es.map (String.data ∘ eventText)).flatten =
      ((es.flatMap eventChunks).map (fun l => l ++ ['\n'])).flatten := by
  induction es with
  | nil => rfl
  | cons e rest ih =>
    simp only [List.map_cons, List.flatten_cons, List.flatMap_cons,
      List.map_append, List.flatten_append]
    rw [← ih, Function.comp_apply, eventText_data]

theorem saveText_data (c : Chatbot) (d : String) :
    (saveText c d).data =
      ((saveChunks c d).map (fun l => l ++ ['\n'])).flatten := by
  have h1 : ("# Chat Conversation\n\n" : String).data =
      "# Chat Conversation".data ++ '\n' :: '\n' :: [] := rfl
  have h2 : ("\n" : String).data = ['\n'] := rfl
  have h3 : ("\n---\n\n" : String).data = '\n' :: '-' :: '-' :: '-' :: '\n' :: '\n' :: [] := rfl
  by_cases ht : 0 < c.total_tokens_used
  · simp [saveText, saveChunks, String.data_append, h1, h2, h3, ht,
      join_eventText_data]
  · simp [saveText, saveChunks, String.data_append, h1, h2, h3, ht,
      join_eventText_data]

theorem saveLines_chunks (c : Chatbot) (d : String) :
    fileLines (saveText c d).data = (saveChunks c d).flatMap (splitChar '\n') := by
  rw [saveText_data, fileLines_flatten]

theorem dropWhile_append_singleton {p : Char → Bool} {x : Char}
    (h : p x = false) (xs : List Char) :
    (xs ++ [x]).dropWhile p = xs.dropWhile p ++ [x] := by
  induction xs with
  | nil => simp [List.dropWhile_cons, h]
  | cons a as ih =>
    simp only [List.cons_append, List.dropWhile_cons]
    by_cases hpa : p a
    · simp [hpa, ih]
    · simp [hpa]

theorem stripChars_cons_head {ch : Char} (l : List Char) (h : wsChar ch = false) :
    stripChars (ch :: l) = ch :: (l.reverse.dropWhile wsChar).reverse := by
  unfold stripChars
  rw [List.dropWhile_cons, h]
  simp only [Bool.false_eq_true, if_false]
  rw [List.reverse_cons, dropWhile_append_singleton h, List.reverse_append]
  rfl

theorem strip_ne_dashes {ch : Char} (l : List Char)
    (hws : wsChar ch = false) (hne : ch ≠ '-') :
    stripChars (ch :: l) ≠ "---".data := by
  rw [stripChars_cons_head l hws]
  intro hcon
  have hd : ("---" : String).data = '-' :: '-' :: '-' :: [] := rfl
  rw [hd] at hcon
  injection hcon with h1 _
  exact hne h1

theorem natDigitChars_no_newline (n : Nat) : '\n' ∉ natDigitChars n := by
  intro h
  exact absurd (natDigitChars_digits n '\n' h) (by decide)

theorem flushMessage_pend (p : Option (Role × String)) (h : pendWF p) :
    flushMessage (p.map Prod.fst) (pendContent p) = flushP p := by
  cases p with
  | none => rfl
  | some rc =>
    obtain ⟨r, cnt⟩ := rc
    obtain ⟨hne, hstrip, _⟩ := h
    have hsp := splitChar_ne_nil '\n' cnt.data
    have hjoin : joinChar '\n' (pendContent (some (r, cnt))) =
        '\n' :: (cnt.data ++ ['\n']) := by
      simp only [pendContent]
      have h1 : ([[]] ++ splitChar '\n' cnt.data ++ [[]] : List (List Char)) =
          [] :: (splitChar '\n' cnt.data ++ [[]]) := by simp
      rw [h1]
      have h2 : (splitChar '\n' cnt.data ++ [[]] : List (List Char)) ≠ [] := by
        simp
      have h3 : joinChar '\n' ([] :: (splitChar '\n' cnt.data ++ [[]])) =
          '\n' :: joinChar '\n' (splitChar '\n' cnt.data ++ [[]]) := by
        cases hc : splitChar '\n' cnt.data ++ [[]] with
        | nil => exact absurd hc h2
        | cons u us => rfl
      rw [h3, joinChar_append_last '\n' [] _ hsp, joinChar_splitChar]
    show flushMessage (some r) (pendContent (some (r, cnt))) =
      [.message r cnt]
    simp only [flushMessage, hjoin]
    have hstrip2 : stripChars ('\n' :: (cnt.data ++ ['\n'])) = cnt.data := by
      rw [stripChars_wrap_nl, hstrip]
    rw [hstrip2]
    have hcne : cnt.data ≠ [] := by
      intro hd
      apply hne
      cases cnt
      cases hd
      rfl
    rw [if_pos ⟨by simp [pendContent], hcne⟩]

theorem processBody_content_lines (ls : List (List Char))
    (h : ∀ l ∈ ls, startsWithL l "## User".data = false ∧
      startsWithL l "## Assistant".data = false ∧
      startsWithL l "**System: Switched to model:".data = false) :
    ∀ (rest : List (List Char)) (r : Role) (acc : List (List Char)),
      processBody (ls ++ rest) (some r) acc =
        processBody rest (some r) (acc ++ ls) := by
  induction ls with
  | nil => intro rest r acc; simp
  | cons l t ih =>
    intro rest r acc
    obtain ⟨h1, h2, h3⟩ := h l (List.mem_cons_self l t)
    have hrest : ∀ x ∈ t, startsWithL x "## User".data = false ∧
        startsWithL x "## Assistant".data = false ∧
        startsWithL x "**System: Switched to model:".data = false :=
      fun x hx => h x (List.mem_cons_of_mem l hx)
    rw [List.cons_append]
    show processBody (l :: (t ++ rest)) (some r) acc = _
    simp only [processBody, h1, h2, h3, Bool.false_eq_true, if_false,
      Option.isSome_some, if_true]
    rw [ih hrest rest r (acc ++ [l])]
    simp

theorem splitHeader_marker (H B : List (List Char))
    (h : ∀ l ∈ H, stripChars l ≠ "---".data) :
    splitHeader (H ++ "---".data :: B) = (H, B) := by
  induction H with
  | nil =>
    simp only [List.nil_append, splitHeader]
    rw [if_pos (by decide)]
  | cons l t ih =>
    have hstep : splitHeader ((l :: t) ++ "---".data :: B) =
        (l :: (splitHeader (t ++ "---".data :: B)).1,
         (splitHeader (t ++ "---".data :: B)).2) := by
      rw [List.cons_append]
      show (if stripChars l = "---".data then ([], t ++ "---".data :: B)
        else (l :: (splitHeader (t ++ "---".data :: B)).1,
          (splitHeader (t ++ "---".data :: B)).2)) = _
      rw [if_neg (h l (List.mem_cons_self l t))]
    rw [hstep, ih (fun x hx => h x (List.mem_cons_of_mem l hx))]

theorem headerScan_foldl_skip :
    ∀ (tok : List (List Char)),
      (∀ l ∈ tok, startsWithL l "**System Prompt:**".data = false ∧
        startsWithL l "**Model:**".data = false) →
      ∀ acc, List.foldl
        (fun acc l =>
          if startsWithL l "**System Prompt:**".data then
            (some (stripChars (l.drop "**System Prompt:**".length)), acc.2)
          else if startsWithL l "**Model:**".data then
            (acc.1,
             some ((stripChars (l.drop "**Model:**".length)).takeWhile
               (fun ch => ch != ' ')))
          else acc)
        acc tok = acc := by
  intro tok
  induction tok with
  | nil => intro _ acc; rfl
  | cons l t ih =>
    intro h acc
    obtain ⟨h1, h2⟩ := h l (List.mem_cons_self l t)
    rw [List.foldl_cons]
    simp only [h1, h2, Bool.false_eq_true, if_false]
    exact ih (fun x hx => h x (List.mem_cons_of_mem l hx)) acc

theorem headerScan_saved (dx spx fx nx : List Char) (tok : List (List Char))
    (hfws : ∀ ch ∈ fx, wsChar ch = false) (hfne : fx ≠ [])
    (htok : ∀ l ∈ tok, startsWithL l "**System Prompt:**".data = false ∧
      startsWithL l "**Model:**".data = false) :
    headerScan (["# Chat Conversation".data, [],
      "**Date:** ".data ++ dx,
      "**Model:** ".data ++ (fx ++ (" (".data ++ (nx ++ ")".data))),
      "**System Prompt:** ".data ++ spx] ++ tok ++ [[]]) =
      (some (stripChars spx), some fx) := by
  have hds : startsWithL ("**Date:** ".data ++ dx) "**System Prompt:**".data
      = false := startsWithL_append_false (by decide) (by decide)
  have hdm : startsWithL ("**Date:** ".data ++ dx) "**Model:**".data = false :=
    startsWithL_append_false (by decide) (by decide)
  have hms : startsWithL ("**Model:** ".data ++
      (fx ++ (" (".data ++ (nx ++ ")".data)))) "**System Prompt:**".data
      = false := startsWithL_append_false (by decide) (by decide)
  have hmm2 : startsWithL ("**Model:** ".data ++
      (fx ++ (" (".data ++ (nx ++ ")".data)))) "**Model:**".data = true :=
    startsWithL_append_true (by decide)
  have hss : startsWithL ("**System Prompt:** ".data ++ spx)
      "**System Prompt:**".data = true := startsWithL_append_true (by decide)
  have hmdrop : ("**Model:** ".data ++
      (fx ++ (" (".data ++ (nx ++ ")".data)))).drop
        ("**Model:**" : String).length = ' ' :: (fx ++ (" (".data ++ (nx ++ ")".data))) := by
    have he : ("**Model:** " : String).data = "**Model:**".data ++ [' '] := by
      decide
    rw [he, List.append_assoc, List.drop_left' (by decide)]
    rfl
  have hmstrip : stripChars (' ' :: (fx ++ (" (".data ++ (nx ++ ")".data)))) =
      fx ++ (" (".data ++ (nx ++ ")".data)) := by
    rw [stripChars_cons_ws _ (by decide)]
    apply stripChars_eq_self_of
    · intro ch hch
      cases hfx : fx with
      | nil => exact absurd hfx hfne
      | cons c0 f' =>
        rw [hfx] at hch
        simp only [List.cons_append, List.head?_cons, Option.some.injEq] at hch
        subst hch
        exact hfws _ (by rw [hfx]; exact List.mem_cons_self _ _)
    · intro ch hch
      have hrw : fx ++ (" (".data ++ (nx ++ ")".data)) =
          (fx ++ (" (".data ++ nx)) ++ [')'] := by
        have : (")" : String).data = [')'] := rfl
        rw [this]
        simp
      rw [hrw, List.getLast?_concat] at hch
      injection hch with hch
      subst hch
      decide
  have hmtake : (fx ++ (" (".data ++ (nx ++ ")".data))).takeWhile
      (fun ch => ch != ' ') = fx := by
    have hrw : fx ++ (" (".data ++ (nx ++ ")".data)) =
        fx ++ ' ' :: ('(' :: (nx ++ ")".data)) := rfl
    rw [hrw]
    exact takeWhile_until_space fx _ hfws
  have hsdrop : ("**System Prompt:** ".data ++ spx).drop
      ("**System Prompt:**" : String).length = ' ' :: spx := by
    have he : ("**System Prompt:** " : String).data =
        "**System Prompt:**".data ++ [' '] := by decide
    rw [he, List.append_assoc, List.drop_left' (by decide)]
    rfl
  have hsstrip : stripChars (' ' :: spx) = stripChars spx :=
    @stripChars_cons_ws ' ' spx (by decide)
  unfold headerScan
  simp only [List.foldl_append, List.foldl_cons, List.foldl_nil,
    hds, hdm, hms, hmm2, hss, Bool.false_eq_true, if_false, if_true,
    show startsWithL "# Chat Conversation".data "**System Prompt:**".data
      = false by decide,
    show startsWithL "# Chat Conversation".data "**Model:**".data = false by
      decide,
    show startsWithL ([] : List Char) "**System Prompt:**".data = false by
      decide,
    show startsWithL ([] : List Char) "**Model:**".data = false by decide]
  simp only [hmdrop, hsdrop, hmstrip, hmtake, hsstrip]
  rw [headerScan_foldl_skip tok htok]

theorem flatMap_eventChunks_split :
    ∀ (es : List SessionEvent), (∀ e ∈ es, eventWF e) →
      (es.flatMap eventChunks).flatMap (splitChar '\n') = es.flatMap blockL := by
  intro es
  induction es with
  | nil => intro _; rfl
  | cons e rest ih =>
    intro h
    have he := h e (List.mem_cons_self e rest)
    have hrest := fun x hx => h x (List.mem_cons_of_mem e hx)
    simp only [List.flatMap_cons, List.flatMap_append]
    rw [ih hrest]
    congr 1
    cases e with
    | systemPromptChange t => rfl
    | message r cnt =>
      obtain ⟨hne, hstrip, hlines⟩ := he
      simp only [eventChunks, blockL, List.flatMap_cons, List.flatMap_nil]
      cases r
      · rw [splitChar_eq_self _ _ (by decide)]
        simp [splitChar]
      · rw [splitChar_eq_self _ _ (by decide)]
        simp [splitChar]
    | modelSwitch m =>
      have hmem : '\n' ∉ ("**System: Switched to model: " ++ m ++ "**").data := by
        simp only [String.data_append]
        intro hc
        rcases List.mem_append.mp hc with hc | hc
        · rcases List.mem_append.mp hc with hc | hc
          · exact absurd hc (by decide)
          · exact he hc
        · exact absurd hc (by decide)
      simp only [eventChunks, blockL, List.flatMap_cons, List.flatMap_nil]
      rw [splitChar_eq_self _ _ hmem]
      rfl

theorem savedLines_shape (c : Chatbot) (d f n : String)
    (hfr : c.active_model_friendly = some f) (hn : c.active_model_name = some n)
    (hd : '\n' ∉ d.data) (hfn : '\n' ∉ f.data) (hnn : '\n' ∉ n.data)
    (hsp : '\n' ∉ c.system_prompt.data)
    (hWF : ∀ e ∈ c.full_conversation_history, eventWF e) :
    fileLines (saveText c d).data =
      (["# Chat Conversation".data, [],
        "**Date:** ".data ++ d.data,
        "**Model:** ".data ++ (f.data ++ (" (".data ++ (n.data ++ ")".data))),
        "**System Prompt:** ".data ++ c.system_prompt.data] ++
       (if 0 < c.total_tokens_used then
          ["**Total Tokens:** ".data ++ (pyNatStr c.total_tokens_used).data]
        else []) ++ [[]]) ++
      "---".data :: ([[]] ++ c.full_conversation_history.flatMap blockL) := by
  rw [saveLines_chunks]
  simp only [saveChunks, hfr, hn, optStr]
  have hdate : splitChar '\n' ("**Date:** ".data ++ d.data) =
      ["**Date:** ".data ++ d.data] := by
    apply splitChar_eq_self
    intro hc
    rcases List.mem_append.mp hc with hc | hc
    · exact absurd hc (by decide)
    · exact hd hc
  have hmodel : splitChar '\n' ("**Model:** ".data ++
      (f.data ++ (" (".data ++ (n.data ++ ")".data)))) =
      ["**Model:** ".data ++ (f.data ++ (" (".data ++ (n.data ++ ")".data)))] := by
    apply splitChar_eq_self
    intro hc
    rcases List.mem_append.mp hc with hc | hc
    · exact absurd hc (by decide)
    rcases List.mem_append.mp hc with hc | hc
    · exact hfn hc
    rcases List.mem_append.mp hc with hc | hc
    · exact absurd hc (by decide)
    rcases List.mem_append.mp hc with hc | hc
    · exact hnn hc
    · exact absurd hc (by decide)
  have hsys : splitChar '\n' ("**System Prompt:** ".data ++ c.system_prompt.data) =
      ["**System Prompt:** ".data ++ c.system_prompt.data] := by
    apply splitChar_eq_self
    intro hc
    rcases List.mem_append.mp hc with hc | hc
    · exact absurd hc (by decide)
    · exact hsp hc
  have htokline : splitChar '\n' ("**Total Tokens:** ".data ++
      (pyNatStr c.total_tokens_used).data) =
      ["**Total Tokens:** ".data ++ (pyNatStr c.total_tokens_used).data] := by
    apply splitChar_eq_self
    intro hc
    rcases List.mem_append.mp hc with hc | hc
    · exact absurd hc (by decide)
    · exact natDigitChars_no_newline _ hc
  by_cases ht : 0 < c.total_tokens_used
  · simp only [ht, if_true, List.flatMap_append, List.flatMap_cons,
      List.flatMap_nil, String.data_append, List.append_assoc]
    rw [flatMap_eventChunks_split _ hWF]
    rw [show splitChar '\n' "# Chat Conversation".data =
      ["# Chat Conversation".data] from splitChar_eq_self _ _ (by decide)]
    rw [show splitChar '\n' ([] : List Char) = [[]] from rfl]
    rw [show splitChar '\n' "---".data = ["---".data] from
      splitChar_eq_self _ _ (by decide)]
    rw [hdate, hmodel, hsys, htokline]
    simp
  · simp only [ht, if_false, List.flatMap_append, List.flatMap_cons,
      List.flatMap_nil, String.data_append, List.append_assoc]
    rw [flatMap_eventChunks_split _ hWF]
    rw [show splitChar '\n' "# Chat Conversation".data =
      ["# Chat Conversation".data] from splitChar_eq_self _ _ (by decide)]
    rw [show splitChar '\n' ([] : List Char) = [[]] from rfl]
    rw [show splitChar '\n' "---".data = ["---".data] from
      splitChar_eq_self _ _ (by decide)]
    rw [hdate, hmodel, hsys]
    simp

theorem processBody_skip_nil (tail : List (List Char))
    (content : List (List Char)) :
    processBody ([] :: tail) none content = processBody tail none content := by
  simp only [processBody,
    show startsWithL ([] : List Char) "## User".data = false by decide,
    show startsWithL ([] : List Char) "## Assistant".data = false by decide,
    show startsWithL ([] : List Char) "**System: Switched to model:".data
      = false by decide,
    Bool.false_eq_true, if_false, Option.isSome_none]

theorem processBody_heading (r : Role) (tail : List (List Char))
    (role : Option Role) (content : List (List Char)) :
    processBody (("## " ++ roleCap r).data :: tail) role content =
      (flushMessage role content ++ (processBody tail (some r) []).1,
       (processBody tail (some r) []).2) := by
  cases r
  · simp only [processBody,
      show startsWithL ("## " ++ roleCap .user).data "## User".data = true by
        decide, if_true]
  · simp only [processBody,
      show startsWithL ("## " ++ roleCap .assistant).data "## User".data
        = false by decide,
      show startsWithL ("## " ++ roleCap .assistant).data "## Assistant".data
        = true by decide,
      Bool.false_eq_true, if_false, if_true]

theorem processBody_marker (m : String) (tail : List (List Char))
    (role : Option Role) (content : List (List Char)) :
    ∃ nm : List Char,
      processBody (("**System: Switched to model: " ++ m ++ "**").data :: tail)
          role content =
        (flushMessage role content ++ [.modelSwitch ⟨nm⟩] ++
          (processBody tail none []).1,
         (processBody tail none []).2) := by
  have hmk : ("**System: Switched to model: " ++ m ++ "**").data =
      "**System: Switched to model: ".data ++ (m.data ++ "**".data) := by
    simp [String.data_append]
  have h1 : startsWithL ("**System: Switched to model: " ++ m ++ "**").data
      "## User".data = false := by
    rw [hmk]; exact startsWithL_append_false (by decide) (by decide)
  have h2 : startsWithL ("**System: Switched to model: " ++ m ++ "**").data
      "## Assistant".data = false := by
    rw [hmk]; exact startsWithL_append_false (by decide) (by decide)
  have h3 : startsWithL ("**System: Switched to model: " ++ m ++ "**").data
      "**System: Switched to model:".data = true := by
    rw [hmk]; exact startsWithL_append_true (by decide)
  have hsplit0 : splitSeq "**System: Switched to model: ".data
      ("**System: Switched to model: " ++ m ++ "**").data =
      [] :: splitSeq "**System: Switched to model: ".data
        (m.data ++ "**".data) := by
    rw [hmk]; exact splitSeq_cons_prefix _ _ (by decide)
  obtain ⟨s0, ss, hss⟩ : ∃ s0 ss,
      splitSeq "**System: Switched to model: ".data (m.data ++ "**".data) =
        s0 :: ss := by
    cases hq : splitSeq "**System: Switched to model: ".data
        (m.data ++ "**".data) with
    | nil => exact absurd hq (splitSeq_ne_nil _ _)
    | cons a b => exact ⟨a, b, rfl⟩
  refine ⟨(splitSeq "**".data s0).headD [], ?_⟩
  simp only [processBody, h1, h2, h3, Bool.false_eq_true, if_false, if_true]
  rw [hsplit0, hss]

theorem processBody_blocks :
    ∀ (es : List SessionEvent), (∀ e ∈ es, eventWF e) →
    ∀ (p : Option (Role × String)), pendWF p →
      (processBody (es.flatMap blockL) (p.map Prod.fst)
        (pendContent p)).2.2.2 = false ∧
      rolesOf ((processBody (es.flatMap blockL) (p.map Prod.fst)
          (pendContent p)).1 ++
        flushMessage
          (processBody (es.flatMap blockL) (p.map Prod.fst)
            (pendContent p)).2.1
          (processBody (es.flatMap blockL) (p.map Prod.fst)
            (pendContent p)).2.2.1) =
      rolesOf (flushP p) ++ rolesOf es := by
  intro es
  induction es with
  | nil =>
    intro _ p hp
    refine ⟨rfl, ?_⟩
    show rolesOf ([] ++ flushMessage (p.map Prod.fst) (pendContent p)) = _
    rw [List.nil_append, flushMessage_pend p hp]
    simp [rolesOf]
  | cons e rest ih =>
    intro hWF p hp
    have he := hWF e (List.mem_cons_self e rest)
    have hrest := fun x hx => hWF x (List.mem_cons_of_mem e hx)
    cases e with
    | systemPromptChange t =>
      have hfl : ((SessionEvent.systemPromptChange t) :: rest).flatMap blockL =
          rest.flatMap blockL := by simp [blockL]
      rw [hfl]
      obtain ⟨hflag, hroles⟩ := ih hrest p hp
      refine ⟨hflag, ?_⟩
      rw [hroles]
      simp [rolesOf]
    | message r cnt =>
      obtain ⟨hne, hstrip, hlines⟩ := he
      have hfl : ((SessionEvent.message r cnt) :: rest).flatMap blockL =
          ("## " ++ roleCap r).data ::
            (pendContent (some (r, cnt)) ++ rest.flatMap blockL) := by
        simp [blockL, pendContent]
      have hcl : ∀ l ∈ pendContent (some (r, cnt)),
          startsWithL l "## User".data = false ∧
          startsWithL l "## Assistant".data = false ∧
          startsWithL l "**System: Switched to model:".data = false := by
        intro l hl
        simp only [pendContent] at hl
        rcases List.mem_append.mp hl with hl2 | hl2
        · rcases List.mem_append.mp hl2 with hl3 | hl3
          · have hl4 : l = [] := by simpa using hl3
            subst hl4
            exact ⟨by decide, by decide, by decide⟩
          · exact hlines l hl3
        · have hl4 : l = [] := by simpa using hl2
          subst hl4
          exact ⟨by decide, by decide, by decide⟩
      rw [hfl, processBody_heading,
        processBody_content_lines _ hcl _ r [], List.nil_append]
      have hIH := ih hrest (some (r, cnt)) ⟨hne, hstrip, hlines⟩
      simp only [Option.map] at hIH
      obtain ⟨hflag, hroles⟩ := hIH
      refine ⟨hflag, ?_⟩
      rw [flushMessage_pend p hp]
      rw [List.append_assoc, rolesOf_append, hroles]
      simp [rolesOf, flushP]
    | modelSwitch m =>
      have hfl : ((SessionEvent.modelSwitch m) :: rest).flatMap blockL =
          ("**System: Switched to model: " ++ m ++ "**").data ::
            ([] :: rest.flatMap blockL) := by simp [blockL]
      rw [hfl]
      obtain ⟨nm, hstep⟩ := processBody_marker m ([] :: rest.flatMap blockL)
        (p.map Prod.fst) (pendContent p)
      rw [hstep, processBody_skip_nil]
      have hIH := ih hrest none trivial
      simp only [Option.map, pendContent] at hIH
      obtain ⟨hflag, hroles⟩ := hIH
      refine ⟨hflag, ?_⟩
      rw [flushMessage_pend p hp]
      rw [List.append_assoc, List.append_assoc, rolesOf_append, rolesOf_append,
        hroles]
      simp [rolesOf, flushP]

theorem load_conversation_eval (c : Chatbot) (lines H Bd : List (List Char))
    (s nm : List Char) (sw : SwitchResult) (c3 : Chatbot)
    (hsplit : splitHeader lines = (H, Bd))
    (hscan : headerScan H = (some s, some nm))
    (hnm : nm ≠ [])
    (hswitch : switch_model
      { (start_new_chat c).2 with system_prompt := ⟨s⟩ } ⟨nm⟩ = (sw, c3))
    (hflag : (processBody Bd none []).2.2.2 = false) :
    load_conversation c lines =
      (.success ("Loaded conversation (" ++
        pyNatStr (rolesOf (c3.full_conversation_history ++
          (processBody Bd none []).1 ++
          flushMessage (processBody Bd none []).2.1
            (processBody Bd none []).2.2.1)).length ++ " messages)"),
       { c3 with
          full_conversation_history := c3.full_conversation_history ++
            (processBody Bd none []).1 ++
            flushMessage (processBody Bd none []).2.1
              (processBody Bd none []).2.2.1
          conversation_history := rolesOf (c3.full_conversation_history ++
            (processBody Bd none []).1 ++
            flushMessage (processBody Bd none []).2.1
              (processBody Bd none []).2.2.1) }) := by
  simp only [load_conversation, hsplit, hscan]
  rw [if_pos hnm, hswitch]
  simp only [hflag, Bool.false_eq_true, if_false]

/-! ### Concrete sample states -/

/-- A concrete session used by witnesses and counterexamples: the
spec's example catalog with three models, the built-in default prompts,
and a fresh history. -/
def sampleBot : Chatbot :=
  { conversation_history := []
    full_conversation_history := []
    system_prompt := "You are a helpful assistant."
    active_model_name := some "groq/openai/gpt-oss-120b"
    active_model_friendly := some "gpt120b"
    models_config :=
      [("gpt120b", ⟨"groq/openai/gpt-oss-120b", "Groq", "Default model"⟩),
       ("gemini-flash", ⟨"gemini/gemini-2.0-flash", "Google", "Fast"⟩),
       ("gemini-pro", ⟨"gemini/gemini-2.5-pro", "Google", "Strong"⟩)]
    prompts := [("default", "You are a helpful assistant."),
                ("direct", "Be direct.")]
    total_tokens_used := 0
    model_token_usage := []
    llm_params := default_llm_params }

/-- The sample session right after a `start_new_chat` followed by one
model switch: the event log holds a single `model_switch` event and no
role messages. -/
def switchOnlyBot : Chatbot :=
  { sampleBot with
      full_conversation_history := [.modelSwitch "gemini-pro"] }

/-! ### Helper lemmas for the claims -/

theorem paramValidator_eq_none_of_not_mem {p : String}
    (h : p ∉ ["temperature", "max_tokens", "top_p", "presence_penalty",
      "frequency_penalty"]) : paramValidator p = none := by
  simp only [List.mem_cons, List.not_mem_nil, or_false, not_or] at h
  obtain ⟨h1, h2, h3, h4, h5⟩ := h
  simp [paramValidator, h1, h2, h3, h4, h5]

theorem set_llm_param_reset (c : Chatbot) (pname v : String) (iF : Bool)
    (mn mx : Option ℚ) (hp : paramValidator (pyLower pname) = some (iF, mn, mx))
    (hv : pyLower v = "none" ∨ pyLower v = "default") :
    set_llm_param c pname v =
      (.success ("Reset " ++ pyLower pname ++ " to its default value."),
       { c with llm_params := (setParamField c.llm_params (pyLower pname)
          (paramDefault (pyLower pname))) }) := by
  simp only [set_llm_param]
  rw [hp]
  simp only [if_pos hv]

theorem set_llm_param_unknown (c : Chatbot) (pname varg : String)
    (hp : paramValidator (pyLower pname) = none) :
    set_llm_param c pname varg =
      (.error ("Unknown parameter: '" ++ pyLower pname ++ "'."), c) := by
  simp only [set_llm_param]
  rw [hp]

theorem assocLookup_map_bump (k : String) (v : Nat) :
    ∀ m : List (String × Nat),
      assocLookup (m.map (fun p => if p.1 == k then (p.1, p.2 + v) else p)) k =
        (assocLookup m k).map (· + v) := by
  intro m
  induction m with
  | nil => simp [assocLookup]
  | cons p ps ih =>
    by_cases hpk : (p.1 == k) = true
    · have h1 : (if p.1 == k then (p.1, p.2 + v) else p) = (p.1, p.2 + v) :=
        if_pos hpk
      simp only [assocLookup, List.map_cons, h1]
      rw [@List.find?_cons_of_pos _ (fun q => q.1 == k) (p.1, p.2 + v) _ hpk,
          @List.find?_cons_of_pos _ (fun q => q.1 == k) p _ hpk]
      simp
    · have hpk' : (p.1 == k) = false := by simpa using hpk
      have h1 : (if p.1 == k then (p.1, p.2 + v) else p) = p := by
        rw [hpk']
        simp
      simp only [assocLookup, List.map_cons, h1]
      rw [@List.find?_cons_of_neg _ (fun q => q.1 == k) p _ (by simp [hpk']),
          @List.find?_cons_of_neg _ (fun q => q.1 == k) p _ (by simp [hpk'])]
      exact ih

theorem assocLookup_bumpUsage (m : List (String × Nat)) (k : String) (v : Nat) :
    (assocLookup (bumpUsage m k v) k).getD 0 = (assocLookup m k).getD 0 + v := by
  unfold bumpUsage
  cases hL : assocLookup m k with
  | none =>
    have hf : m.find? (fun p => p.1 == k) = none := by
      simp only [assocLookup] at hL
      cases hff : m.find? (fun p => p.1 == k) with
      | none => rfl
      | some q => simp [hff] at hL
    simp [assocLookup, List.find?_append, hf]
  | some old =>
    rw [assocLookup_map_bump, hL]
    simp

theorem lookupModel_eq_none_of_not_mem {c : Chatbot} {id : String}
    (h : id ∉ modelKeys c) : lookupModel c id = none := by
  simp only [lookupModel, assocLookup]
  cases hf : c.models_config.find? (fun p => p.1 == id) with
  | none => rfl
  | some q =>
    have hq := List.find?_some hf
    have hmem := List.mem_of_find?_eq_some hf
    simp only [beq_iff_eq] at hq
    exact absurd (by simpa [modelKeys, hq] using List.mem_map_of_mem Prod.fst hmem) h

/-- Unfolding of `switch_model` on an exact catalog hit. -/
theorem switch_model_exact (c : Chatbot) (id : String) (info : ModelInfo)
    (h : lookupModel c id = some info) :
    switch_model c id =
      (.success ("Switched to: " ++ id ++ " (" ++ info.provider ++ ")"),
       { c with
          active_model_name := some info.litellm_string
          active_model_friendly := some id
          full_conversation_history :=
            c.full_conversation_history ++ [.modelSwitch id] }) := by
  conv_lhs => rw [switch_model]
  split
  · rename_i info2 hL
    rw [h] at hL
    injection hL with h2
    subst h2
    rfl
  · rename_i hL
    rw [h] at hL
    cases hL

/-- Unfolding of `switch_model` on the all-digits path. -/
theorem switch_model_digits (c : Chatbot) (s : String)
    (hnone : lookupModel c s = none) (hdig : isAllDigits s = true) :
    switch_model c s =
      (if hR : 0 ≤ (parseNatDigits s : Int) - 1 ∧
          (parseNatDigits s : Int) - 1 < (modelKeys c).length then
        switch_model c
          ((modelKeys c).get ⟨((parseNatDigits s : Int) - 1).toNat, by omega⟩)
      else
        (.error ("Invalid model number. Use 1-" ++ pyNatStr (modelKeys c).length),
         c)) := by
  conv_lhs => rw [switch_model]
  split
  · rename_i info hL
    rw [hnone] at hL
    cases hL
  · simp only [hdig, if_true]

/-- Unfolding of `switch_model` on the fuzzy path. -/
theorem switch_model_fuzzy (c : Chatbot) (id : String)
    (hnone : lookupModel c id = none) (hdig : isAllDigits id = false) :
    switch_model c id =
      (match fuzzy_match_model c id with
       | [] => (.error ("No models found matching '" ++ id ++ "'"), c)
       | [m] => switch_model c m.1
       | ms => (.multiple ms, c)) := by
  conv_lhs => rw [switch_model]
  split
  · rename_i info hL
    rw [hnone] at hL
    cases hL
  · simp only [hdig, Bool.false_eq_true, if_false]
    rcases hF : fuzzy_match_model c id with _ | ⟨m, _ | ⟨m2, rest⟩⟩ <;>
      simp [hF]

/-! ### Claim C1 -/

/-- C1: a streaming turn that fails at any point mid-stream — even
after some content deltas were received and emitted — leaves the
role-filtered message list, the full event log and the token counter
(indeed the whole session state) exactly as before the call, records no
partial assistant message, and the caller receives the already-emitted
content deltas followed by a single error event and nothing further. -/
theorem C1_stream_failure_is_stateless (c : Chatbot) (user_prompt : String)
    (pre : List String) (errMsg : String) :
    ((get_chat_response_stream c user_prompt (.raises pre errMsg)).2.conversation_history
        = c.conversation_history) ∧
    ((get_chat_response_stream c user_prompt (.raises pre errMsg)).2.full_conversation_history
        = c.full_conversation_history) ∧
    ((get_chat_response_stream c user_prompt (.raises pre errMsg)).2.total_tokens_used
        = c.total_tokens_used) ∧
    (get_chat_response_stream c user_prompt (.raises pre errMsg)).2 = c ∧
    ∃ e, (get_chat_response_stream c user_prompt (.raises pre errMsg)).1 =
      (if c.active_model_name.isNone then []
       else (pre.filter (fun t => t != "")).map ChatEvent.content) ++
      [ChatEvent.error e] := by
  by_cases h : c.active_model_name.isNone
  · refine ⟨?_, ?_, ?_, ?_, "No model is currently active.", ?_⟩ <;>
      simp [get_chat_response_stream, h]
  · refine ⟨?_, ?_, ?_, ?_, format_error errMsg, ?_⟩ <;>
      simp [get_chat_response_stream, h]

/-! ### Claim C2 -/

/-- C2: a successful streaming turn whose exhausted stream carries a
usage record adds `totalTokens` both to the session-global counter and
to the per-model counter keyed by the active model's friendly name,
accumulating across model switches. (Stated against the spec-modelled
turn `get_chat_response_stream_spec`: the per-model map read by
`src/main.py` is not maintained by any code under `src/`.) -/
theorem C2_successful_turn_token_accounting (c : Chatbot)
    (user_prompt : String) (chunks : List String) (u : Nat) (f : String)
    (hm : c.active_model_name.isSome = true) (hc : chunks ≠ [])
    (hf : c.active_model_friendly = some f) :
    ((get_chat_response_stream_spec c user_prompt
        (.completes chunks (some u))).2.total_tokens_used
      = c.total_tokens_used + u) ∧
    ((assocLookup (get_chat_response_stream_spec c user_prompt
        (.completes chunks (some u))).2.model_token_usage f).getD 0
      = (assocLookup c.model_token_usage f).getD 0 + u) := by
  obtain ⟨nm, hnm⟩ := Option.isSome_iff_exists.mp hm
  cases chunks with
  | nil => exact absurd rfl hc
  | cons ch chs =>
    constructor
    · simp [get_chat_response_stream_spec, get_chat_response_stream, hnm]
    · simp only [get_chat_response_stream_spec, get_chat_response_stream, hnm,
        Option.isNone_some, Bool.false_eq_true, if_false, hf, optStr]
      rw [assocLookup_bumpUsage]

/-- Witness for C2 at a concrete session and stream. -/
theorem C2_witness :
    (sampleBot.active_model_name.isSome = true) ∧
    (["Hello", " world"] ≠ ([] : List String)) ∧
    (sampleBot.active_model_friendly = some "gpt120b") ∧
    (((get_chat_response_stream_spec sampleBot "hi"
        (.completes ["Hello", " world"] (some 42))).2.total_tokens_used
      = sampleBot.total_tokens_used + 42) ∧
     ((assocLookup (get_chat_response_stream_spec sampleBot "hi"
        (.completes ["Hello", " world"] (some 42))).2.model_token_usage
          "gpt120b").getD 0
      = (assocLookup sampleBot.model_token_usage "gpt120b").getD 0 + 42)) :=
  ⟨by decide, by decide, by decide,
   C2_successful_turn_token_accounting sampleBot "hi" ["Hello", " world"] 42
     "gpt120b" (by decide) (by decide) (by decide)⟩

/-! ### Claim C3 -/

/-- C3: calling `add_prompt` with an alias that already exists returns
the warning `"... already exists. Overwriting."` but then returns
without storing anything: afterwards the library still maps the alias
to the old text, the state is untouched, and nothing was persisted —
the code contradicts its own message and the documented overwrite
behaviour. -/
theorem C3_add_prompt_existing_alias_keeps_old_text :
    (add_prompt sampleBot "default" "NEW TEXT" true).1 =
      .warning "Alias 'default' already exists. Overwriting." ∧
    (add_prompt sampleBot "default" "NEW TEXT" true).2 = sampleBot ∧
    assocLookup (add_prompt sampleBot "default" "NEW TEXT" true).2.prompts
      "default" = some "You are a helpful assistant." := by
  refine ⟨rfl, rfl, rfl⟩

/-! ### Claim C6 -/

/-- C6: immediately after `set_system_prompt` returns — whatever the
prior state and whether the argument is an alias or raw text — the
role-filtered message list is empty, the full event log is empty and
the token counter is zero; moreover the call decomposes as appending
the `system_prompt_change` event to the old session's log and then
clearing everything via `start_new_chat`, so the event belongs to the
closed session and is erased by the clear. -/
theorem C6_set_system_prompt_clears_session (c : Chatbot) (arg : String) :
    ((set_system_prompt c arg).2.conversation_history = []) ∧
    ((set_system_prompt c arg).2.full_conversation_history = []) ∧
    ((set_system_prompt c arg).2.total_tokens_used = 0) ∧
    (set_system_prompt c arg).2 =
      (start_new_chat { c with
          system_prompt :=
            (match assocLookup c.prompts arg with
              | some t => t
              | none => arg)
          full_conversation_history := c.full_conversation_history ++
            [.systemPromptChange
              (match assocLookup c.prompts arg with
                | some t => t
                | none => arg)] }).2 := by
  refine ⟨rfl, rfl, rfl, ?_⟩
  cases h : assocLookup c.prompts arg <;>
    simp [set_system_prompt, start_new_chat, h]

/-! ### Claim C9 -/

section RatEval

attribute [local semireducible] Rat.add Rat.mul Rat.inv Rat.sub Rat.ofScientific

theorem set_llm_param_temp_35 (c : Chatbot) :
    set_llm_param c "temperature" "3.5" =
      (.error "temperature must be no more than 2.0.", c) := rfl

end RatEval

/-- C9: `set_llm_param("temperature", "3.5")` fails with a range error
naming the violated bound and leaves the state (hence the stored
temperature) unchanged; `"none"` and `"default"` (case-insensitively)
reset exactly the one parameter to its default; a name outside the
fixed parameter set fails with an unknown-parameter error without
mutating anything. -/
theorem C9_set_llm_param_validation (c : Chatbot) (v pname varg : String)
    (hv : pyLower v = "none" ∨ pyLower v = "default")
    (hp : pyLower pname ∉ ["temperature", "max_tokens", "top_p",
      "presence_penalty", "frequency_penalty"]) :
    ((set_llm_param c "temperature" "3.5").1 =
        .error "temperature must be no more than 2.0." ∧
      (set_llm_param c "temperature" "3.5").2 = c) ∧
    ((set_llm_param c "temperature" v).1 =
        .success "Reset temperature to its default value." ∧
      (set_llm_param c "temperature" v).2 =
        { c with llm_params := { c.llm_params with
            temperature := default_llm_params.temperature } }) ∧
    ((set_llm_param c pname varg).1 =
        .error ("Unknown parameter: '" ++ pyLower pname ++ "'.") ∧
      (set_llm_param c pname varg).2 = c) := by
  have hreset := set_llm_param_reset c "temperature" v true (some 0) (some 2)
    rfl hv
  have hunk := set_llm_param_unknown c pname varg
    (paramValidator_eq_none_of_not_mem hp)
  refine ⟨⟨?_, ?_⟩, ⟨?_, ?_⟩, ⟨?_, ?_⟩⟩
  · exact congrArg Prod.fst (set_llm_param_temp_35 c)
  · exact congrArg Prod.snd (set_llm_param_temp_35 c)
  · rw [hreset]
    rfl
  · rw [hreset]
    rfl
  · rw [hunk]
  · rw [hunk]

/-- Witness for C9 at a concrete session and concrete strings. -/
theorem C9_witness :
    ((pyLower "NONE" = "none" ∨ pyLower "NONE" = "default") ∧
     (pyLower "penalty" ∉ ["temperature", "max_tokens", "top_p",
        "presence_penalty", "frequency_penalty"])) ∧
    (((set_llm_param sampleBot "temperature" "3.5").1 =
        .error "temperature must be no more than 2.0." ∧
      (set_llm_param sampleBot "temperature" "3.5").2 = sampleBot) ∧
    ((set_llm_param sampleBot "temperature" "NONE").1 =
        .success "Reset temperature to its default value." ∧
      (set_llm_param sampleBot "temperature" "NONE").2 =
        { sampleBot with llm_params := { sampleBot.llm_params with
            temperature := default_llm_params.temperature } }) ∧
    ((set_llm_param sampleBot "penalty" "x").1 =
        .error ("Unknown parameter: '" ++ pyLower "penalty" ++ "'.") ∧
      (set_llm_param sampleBot "penalty" "x").2 = sampleBot)) :=
  ⟨⟨by decide, by decide⟩,
   C9_set_llm_param_validation sampleBot "NONE" "penalty" "x"
     (by decide) (by decide)⟩

/-! ### Claim C4 -/

section SortFilterComm

variable {α : Type} (r : α → α → Prop) [DecidableRel r]

theorem orderedInsert_forall_cons (a : α) (m : List α)
    (h : ∀ x ∈ m, r a x) : m.orderedInsert r a = a :: m := by
  cases m with
  | nil => rfl
  | cons b bs => exact List.orderedInsert_of_le r bs (h b (by simp))

theorem filter_orderedInsert [IsTrans α r] (p : α → Bool) (a : α) :
    ∀ m : List α, List.Sorted r m →
      (m.orderedInsert r a).filter p =
        if p a then (m.filter p).orderedInsert r a else m.filter p := by
  intro m
  induction m with
  | nil =>
    intro _
    by_cases hpa : p a <;> simp [List.orderedInsert, hpa]
  | cons b bs ih =>
    intro hs
    have hb : ∀ x ∈ bs, r b x := List.rel_of_sorted_cons hs
    have hbs : List.Sorted r bs := hs.of_cons
    by_cases hab : r a b
    · rw [List.orderedInsert_of_le r bs hab]
      by_cases hpa : p a
      · by_cases hpb : p b
        · simp [List.filter_cons, hpa, hpb, List.orderedInsert_of_le r _ hab]
        · have hfa : ∀ x ∈ bs.filter p, r a x := by
            intro x hx
            exact Trans.trans hab (hb x (List.mem_of_mem_filter hx))
          simp [List.filter_cons, hpa, hpb, orderedInsert_forall_cons r a _ hfa]
      · simp [List.filter_cons, hpa]
    · simp only [List.orderedInsert, if_neg hab]
      by_cases hpa : p a
      · by_cases hpb : p b
        · simp [List.filter_cons, hpa, hpb, ih hbs, List.orderedInsert,
            if_neg hab]
        · simp [List.filter_cons, hpa, hpb, ih hbs]
      · by_cases hpb : p b
        · simp [List.filter_cons, hpa, hpb, ih hbs]
        · simp [List.filter_cons, hpa, hpb, ih hbs]

theorem insertionSort_filter [IsTotal α r] [IsTrans α r] (p : α → Bool)
    (l : List α) :
    (l.filter p).insertionSort r = (l.insertionSort r).filter p := by
  induction l with
  | nil => simp
  | cons a as ih =>
    by_cases hpa : p a
    · rw [List.filter_cons_of_pos hpa]
      simp only [List.insertionSort]
      rw [ih, filter_orderedInsert r p a _ (List.sorted_insertionSort r as),
        if_pos hpa]
    · rw [List.filter_cons_of_neg (by simpa using hpa)]
      simp only [List.insertionSort]
      rw [ih, filter_orderedInsert r p a _ (List.sorted_insertionSort r as),
        if_neg hpa]

end SortFilterComm

/-- The fuzzy pipeline in the order the claim states it: score every
catalog key (base similarity ratio plus a 0.3 bonus when the lowered
query is a substring of the lowered key), keep scores strictly above
0.4, sort descending (stably), truncate to the top 5. Defined from the
claim's wording, to be compared with the source-order
`fuzzy_match_model`, which sorts before filtering. -/
def fuzzyPipelineSpec (c : Chatbot) (query : String) : List (String × ℚ) :=
  let q := pyLower query
  let scored := c.models_config.map (fun nm =>
    let base := simRatio (pyLower q).data (pyLower nm.1).data
    (nm.1, if pyIn q (pyLower nm.1) then base + 3 / 10 else base))
  ((scored.filter (fun m => (2 : ℚ) / 5 < m.2)).insertionSort scoreGE).take 5

theorem fuzzy_eq_pipeline (c : Chatbot) (query : String) :
    fuzzy_match_model c query = fuzzyPipelineSpec c query := by
  simp only [fuzzy_match_model, fuzzyPipelineSpec]
  rw [insertionSort_filter]

/-- C4: on an identifier that is neither an exact friendly name nor all
digits, resolution computes for each catalog key a similarity ratio in
[0, 1] of the lowered strings, adds exactly 0.3 when the identifier is
a case-insensitive substring of the key, keeps only candidates scoring
strictly above 0.4, sorts them descending, truncates to the top 5
(`fuzzy_match_model` equals the claim-order pipeline), and then: zero
survivors yields a not-found error, exactly one survivor switches to
that model, and two or more survivors yield the ranked candidate
list. -/
theorem C4_fuzzy_resolution (c : Chatbot) (id : String)
    (hex : id ∉ modelKeys c) (hnd : isAllDigits id = false) :
    fuzzy_match_model c id = fuzzyPipelineSpec c id ∧
    (∀ nm ∈ c.models_config,
        0 ≤ simRatio (pyLower (pyLower id)).data (pyLower nm.1).data ∧
        simRatio (pyLower (pyLower id)).data (pyLower nm.1).data ≤ 1) ∧
    (fuzzy_match_model c id).length ≤ 5 ∧
    (∀ m ∈ fuzzy_match_model c id, m.1 ∈ modelKeys c ∧ (2 : ℚ) / 5 < m.2) ∧
    List.Sorted scoreGE (fuzzy_match_model c id) ∧
    (fuzzy_match_model c id = [] →
      switch_model c id =
        (.error ("No models found matching '" ++ id ++ "'"), c)) ∧
    (∀ m, fuzzy_match_model c id = [m] →
      (∃ msg, (switch_model c id).1 = .success msg) ∧
      (switch_model c id).2.active_model_friendly = some m.1 ∧
      switch_model c id = switch_model c m.1) ∧
    (∀ m1 m2 rest, fuzzy_match_model c id = m1 :: m2 :: rest →
      switch_model c id = (.multiple (m1 :: m2 :: rest), c)) := by
  have hnone := lookupModel_eq_none_of_not_mem hex
  refine ⟨fuzzy_eq_pipeline c id, ?_, ?_, ?_, ?_, ?_, ?_, ?_⟩
  · intro nm _
    exact ⟨simRatio_nonneg _ _, simRatio_le_one _ _⟩
  · simp only [fuzzy_match_model]
    exact List.length_take_le 5 _
  · intro m hm
    refine ⟨fuzzy_match_model_mem hm, ?_⟩
    simp only [fuzzy_match_model] at hm
    have h1 := List.mem_of_mem_take hm
    have h2 := (List.mem_filter.mp h1).2
    simpa using h2
  · simp only [fuzzy_match_model]
    have hsorted : List.Sorted scoreGE
        ((c.models_config.map (fun nm =>
          ((nm.1 : String),
            (if pyIn (pyLower id) (pyLower nm.1) then
              simRatio (pyLower (pyLower id)).data (pyLower nm.1).data + 3 / 10
            else
              simRatio (pyLower (pyLower id)).data
                (pyLower nm.1).data)))).insertionSort scoreGE) :=
      List.sorted_insertionSort scoreGE _
    exact ((hsorted.filter _).sublist (List.take_sublist _ _))
  · intro hF
    rw [switch_model_fuzzy c id hnone hnd, hF]
  · intro m hF
    have hmem : m.1 ∈ modelKeys c :=
      fuzzy_match_model_mem (by rw [hF]; exact List.mem_singleton_self m)
    obtain ⟨info, hinfo⟩ :=
      Option.isSome_iff_exists.mp (lookupModel_isSome_of_mem hmem)
    have hstep : switch_model c id = switch_model c m.1 := by
      rw [switch_model_fuzzy c id hnone hnd, hF]
    refine ⟨⟨"Switched to: " ++ m.1 ++ " (" ++ info.provider ++ ")", ?_⟩, ?_,
      hstep⟩
    · rw [hstep, switch_model_exact c m.1 info hinfo]
    · rw [hstep, switch_model_exact c m.1 info hinfo]
  · intro m1 m2 rest hF
    rw [switch_model_fuzzy c id hnone hnd, hF]

/-- Witness for C4 at the sample catalog and the identifier
`"gemini"`. -/
theorem C4_witness :
    ("gemini" ∉ modelKeys sampleBot ∧ isAllDigits "gemini" = false) ∧
    (fuzzy_match_model sampleBot "gemini" = fuzzyPipelineSpec sampleBot "gemini" ∧
    (∀ nm ∈ sampleBot.models_config,
        0 ≤ simRatio (pyLower (pyLower "gemini")).data (pyLower nm.1).data ∧
        simRatio (pyLower (pyLower "gemini")).data (pyLower nm.1).data ≤ 1) ∧
    (fuzzy_match_model sampleBot "gemini").length ≤ 5 ∧
    (∀ m ∈ fuzzy_match_model sampleBot "gemini",
        m.1 ∈ modelKeys sampleBot ∧ (2 : ℚ) / 5 < m.2) ∧
    List.Sorted scoreGE (fuzzy_match_model sampleBot "gemini") ∧
    (fuzzy_match_model sampleBot "gemini" = [] →
      switch_model sampleBot "gemini" =
        (.error ("No models found matching '" ++ "gemini" ++ "'"), sampleBot)) ∧
    (∀ m, fuzzy_match_model sampleBot "gemini" = [m] →
      (∃ msg, (switch_model sampleBot "gemini").1 = .success msg) ∧
      (switch_model sampleBot "gemini").2.active_model_friendly = some m.1 ∧
      switch_model sampleBot "gemini" = switch_model sampleBot m.1) ∧
    (∀ m1 m2 rest, fuzzy_match_model sampleBot "gemini" = m1 :: m2 :: rest →
      switch_model sampleBot "gemini" =
        (.multiple (m1 :: m2 :: rest), sampleBot))) :=
  ⟨⟨by decide, by decide⟩,
   C4_fuzzy_resolution sampleBot "gemini" (by decide) (by decide)⟩

/-! ### Claim C5 -/

/-- Catalog on which C5 fails as stated: the friendly name `"1"` is an
exact key, which `switch_model` prefers over numeric selection. -/
def digitKeyBot : Chatbot :=
  { sampleBot with
      models_config := [("one", ⟨"prov/one", "P", ""⟩),
                        ("1", ⟨"prov/1", "P", ""⟩)] }

/-- Counterexample to C5 as stated: over an arbitrary catalog, an
all-digit friendly name defeats the numeric-index reading. With catalog
keys `["one", "1"]`, `switch_model("1")` exact-matches the key `"1"`
instead of resolving to the 1st key `"one"`. -/
theorem C5_counterexample :
    switch_model digitKeyBot (pyNatStr 1) ≠
      switch_model digitKeyBot ((modelKeys digitKeyBot).get ⟨1 - 1, by decide⟩) := by
  intro heq
  have h1 : (switch_model digitKeyBot (pyNatStr 1)).1 =
      .success "Switched to: 1 (P)" := by
    rw [switch_model]
    rfl
  have h2 : (switch_model digitKeyBot
      ((modelKeys digitKeyBot).get ⟨1 - 1, by decide⟩)).1 =
      .success "Switched to: one (P)" := by
    rw [switch_model]
    rfl
  rw [heq, h2] at h1
  exact absurd h1 (by decide)

/-- C5 (amended): for every catalog none of whose friendly names
consists entirely of decimal digits, and every `i` in `[1, count]`,
`switch_model(str(i))` returns the same result (and state) as
`switch_model` applied to the i-th friendly name in insertion order,
which resolves as an exact match; `switch_model("0")` and
`switch_model(str(count+1))` return errors citing the valid range and
leave the state untouched. -/
theorem C5_numeric_selection (c : Chatbot) (i : Nat)
    (hnd : ∀ k ∈ modelKeys c, isAllDigits k = false)
    (h1 : 1 ≤ i) (h2 : i ≤ (modelKeys c).length) :
    switch_model c (pyNatStr i) =
      switch_model c ((modelKeys c).get ⟨i - 1, by omega⟩) ∧
    switch_model c (pyNatStr 0) =
      (.error ("Invalid model number. Use 1-" ++ pyNatStr (modelKeys c).length),
       c) ∧
    switch_model c (pyNatStr ((modelKeys c).length + 1)) =
      (.error ("Invalid model number. Use 1-" ++ pyNatStr (modelKeys c).length),
       c) := by
  have hnum : ∀ s : String, isAllDigits s = true → lookupModel c s = none := by
    intro s hs
    refine lookupModel_eq_none_of_not_mem ?_
    intro hm
    have := hnd s hm
    rw [hs] at this
    cases this
  refine ⟨?_, ?_, ?_⟩
  · rw [switch_model_digits c (pyNatStr i) (hnum _ (isAllDigits_pyNatStr i))
      (isAllDigits_pyNatStr i)]
    rw [dif_pos (by rw [parseNatDigits_pyNatStr]; omega)]
    have hidx : ((parseNatDigits (pyNatStr i) : Int) - 1).toNat = i - 1 := by
      rw [parseNatDigits_pyNatStr]
      omega
    exact congrArg (switch_model c) (congrArg (modelKeys c).get (Fin.ext hidx))
  · rw [switch_model_digits c (pyNatStr 0) (hnum _ (isAllDigits_pyNatStr 0))
      (isAllDigits_pyNatStr 0)]
    rw [dif_neg (by rw [parseNatDigits_pyNatStr]; omega)]
  · rw [switch_model_digits c (pyNatStr ((modelKeys c).length + 1))
      (hnum _ (isAllDigits_pyNatStr _)) (isAllDigits_pyNatStr _)]
    rw [dif_neg (by rw [parseNatDigits_pyNatStr]; omega)]

/-- Witness for C5 (amended) at the sample catalog and `i = 2`. -/
theorem C5_witness :
    ((∀ k ∈ modelKeys sampleBot, isAllDigits k = false) ∧
      1 ≤ 2 ∧ 2 ≤ (modelKeys sampleBot).length) ∧
    (switch_model sampleBot (pyNatStr 2) =
      switch_model sampleBot ((modelKeys sampleBot).get ⟨2 - 1, by decide⟩) ∧
    switch_model sampleBot (pyNatStr 0) =
      (.error ("Invalid model number. Use 1-" ++
        pyNatStr (modelKeys sampleBot).length), sampleBot) ∧
    switch_model sampleBot (pyNatStr ((modelKeys sampleBot).length + 1)) =
      (.error ("Invalid model number. Use 1-" ++
        pyNatStr (modelKeys sampleBot).length), sampleBot)) :=
  ⟨⟨by decide, by decide, by decide⟩,
   C5_numeric_selection sampleBot 2 (by decide) (by decide) (by decide)⟩

/-! ### Claim C10 -/

set_option maxRecDepth 4000 in
/-- C10: `save_conversation` treats the session as empty — and refuses
to save — exactly when the full event log is empty; a session whose log
holds a single `model_switch` event and no role messages saves
successfully, and the written document contains the model-switch marker
line but no role section heading. -/
theorem C10_save_refuses_only_empty_log :
    (∀ (c : Chatbot) (d : String),
        (∃ msg, save_conversation c d = .warning msg) ↔
          c.full_conversation_history = []) ∧
    ((save_conversation switchOnlyBot "2026-01-02 03:04:05").isWritten = true ∧
     "**System: Switched to model: gemini-pro**".data ∈
       (save_conversation switchOnlyBot "2026-01-02 03:04:05").linesOf ∧
     ∀ l ∈ (save_conversation switchOnlyBot "2026-01-02 03:04:05").linesOf,
       startsWithL l "## ".data = false) := by
  constructor
  · intro c d
    constructor
    · intro ⟨msg, hm⟩
      by_contra hne
      have : ¬ c.full_conversation_history.isEmpty := by
        simpa [List.isEmpty_iff] using hne
      simp [save_conversation, this] at hm
    · intro he
      exact ⟨"No conversation to save.", by simp [save_conversation, he]⟩
  · decide

/-! ### Helper lemmas for Claim C8 -/

theorem switch_model_exact_history (c : Chatbot) (k : String)
    (info : ModelInfo) (h : lookupModel c k = some info) :
    (switch_model c k).2.conversation_history = c.conversation_history ∧
    ∃ s, (switch_model c k).2.full_conversation_history =
        c.full_conversation_history ++ s ∧ rolesOf s = [] := by
  rw [switch_model_exact c k info h]
  exact ⟨rfl, [.modelSwitch k], rfl, rfl⟩

theorem switch_model_history (c : Chatbot) (id : String) :
    (switch_model c id).2.conversation_history = c.conversation_history ∧
    ∃ s, (switch_model c id).2.full_conversation_history =
        c.full_conversation_history ++ s ∧ rolesOf s = [] := by
  by_cases hL : (lookupModel c id).isSome
  · obtain ⟨info, hinfo⟩ := Option.isSome_iff_exists.mp hL
    exact switch_model_exact_history c id info hinfo
  · have hnone : lookupModel c id = none :=
      Option.not_isSome_iff_eq_none.mp hL
    by_cases hdig : isAllDigits id = true
    · rw [switch_model_digits c id hnone hdig]
      split
      · rename_i hR
        have hk : ((modelKeys c).get
            ⟨((parseNatDigits id : Int) - 1).toNat, by omega⟩) ∈ modelKeys c :=
          List.get_mem _ _ _
        obtain ⟨info, hinfo⟩ :=
          Option.isSome_iff_exists.mp (lookupModel_isSome_of_mem hk)
        exact switch_model_exact_history c _ info hinfo
      · exact ⟨rfl, [], by simp, rfl⟩
    · have hdigf : isAllDigits id = false := by
        simpa using hdig
      rw [switch_model_fuzzy c id hnone hdigf]
      rcases hF : fuzzy_match_model c id with _ | ⟨m, _ | ⟨m2, rest⟩⟩
      · exact ⟨rfl, [], by simp, rfl⟩
      · have hmem : m ∈ fuzzy_match_model c id := by
          rw [hF]; exact List.mem_singleton_self m
        obtain ⟨info, hinfo⟩ := Option.isSome_iff_exists.mp
          (lookupModel_isSome_of_mem (fuzzy_match_model_mem hmem))
        exact switch_model_exact_history c m.1 info hinfo
      · exact ⟨rfl, [], by simp, rfl⟩

theorem stream_history (c : Chatbot) (p : String) (st : StreamBehavior)
    (hInv : historyInvariant c) :
    historyInvariant (get_chat_response_stream c p st).2 ∧
    ∃ s, (get_chat_response_stream c p st).2.full_conversation_history =
      c.full_conversation_history ++ s := by
  by_cases h : c.active_model_name.isNone
  · have hst : (get_chat_response_stream c p st).2 = c := by
      simp [get_chat_response_stream, h]
    rw [hst]
    exact ⟨hInv, [], by simp⟩
  · cases st with
    | raises pre msg =>
      have hst : (get_chat_response_stream c p (.raises pre msg)).2 = c := by
        simp [get_chat_response_stream, h]
      rw [hst]
      exact ⟨hInv, [], by simp⟩
    | completes chunks usage =>
      cases chunks with
      | nil =>
        have hst : (get_chat_response_stream c p (.completes [] usage)).2 = c := by
          simp [get_chat_response_stream, h]
        rw [hst]
        exact ⟨hInv, [], by simp⟩
      | cons a as =>
        have hst : (get_chat_response_stream c p (.completes (a :: as) usage)).2 =
            { c with
                total_tokens_used := c.total_tokens_used + usage.getD 0
                conversation_history := c.conversation_history ++
                  [⟨.user, p⟩, ⟨.assistant, String.join (a :: as)⟩]
                full_conversation_history := c.full_conversation_history ++
                  [.message .user p,
                   .message .assistant (String.join (a :: as))] } := by
          simp [get_chat_response_stream, h]
        rw [hst]
        refine ⟨?_, [.message .user p, .message .assistant (String.join (a :: as))], rfl⟩
        show c.conversation_history ++ _ = rolesOf (c.full_conversation_history ++ _)
        rw [rolesOf_append, hInv]
        rfl

theorem load_success_invariant (c : Chatbot) (lines : List (List Char))
    (h : ∃ m, (load_conversation c lines).1 = OpResult.success m) :
    historyInvariant (load_conversation c lines).2 := by
  obtain ⟨m, hm⟩ := h
  simp only [load_conversation] at hm ⊢
  split at hm
  · simp at hm
  · rename_i hflag
    simp only [if_neg hflag]
    rfl

theorem load_conversation_replaces (c : Chatbot) (h1 : List Message)
    (h2 : List SessionEvent) (t : Nat) (lines : List (List Char)) :
    load_conversation { c with
        conversation_history := h1
        full_conversation_history := h2
        total_tokens_used := t } lines =
      load_conversation c lines := rfl

/-! ### Claim C8 -/

/-- C8 (amended): after a model switch, a streaming turn, a
system-prompt change, a new chat, and any load that reports success, the
role-filtered message list equals the role filter of the full event log;
the switch and the streaming turn only ever append to the event log, the
system-prompt change and the new chat replace it with the empty log, and
a load replaces it wholly — its result is independent of the prior
histories and token counter. (A load that aborts on the mid-parse
`IndexError` is the exception the original claim missed: it keeps the
partially parsed log while the message list stays empty.) -/
theorem C8_history_invariant :
    (∀ (c : Chatbot) (id : String), historyInvariant c →
       historyInvariant (switch_model c id).2 ∧
       ∃ s, (switch_model c id).2.full_conversation_history =
         c.full_conversation_history ++ s) ∧
    (∀ (c : Chatbot) (p : String) (st : StreamBehavior), historyInvariant c →
       historyInvariant (get_chat_response_stream c p st).2 ∧
       ∃ s, (get_chat_response_stream c p st).2.full_conversation_history =
         c.full_conversation_history ++ s) ∧
    (∀ (c : Chatbot) (p : String),
       historyInvariant (set_system_prompt c p).2 ∧
       (set_system_prompt c p).2.full_conversation_history = []) ∧
    (∀ (c : Chatbot),
       historyInvariant (start_new_chat c).2 ∧
       (start_new_chat c).2.full_conversation_history = []) ∧
    (∀ (c : Chatbot) (lines : List (List Char)),
       (∃ m, (load_conversation c lines).1 = OpResult.success m) →
       historyInvariant (load_conversation c lines).2) ∧
    (∀ (c : Chatbot) (h1 : List Message) (h2 : List SessionEvent) (t : Nat)
       (lines : List (List Char)),
       load_conversation { c with
         conversation_history := h1
         full_conversation_history := h2
         total_tokens_used := t } lines =
       load_conversation c lines) := by
  refine ⟨?_, stream_history, ?_, ?_, load_success_invariant,
    load_conversation_replaces⟩
  · intro c id hInv
    obtain ⟨hconv, s, hfull, hroles⟩ := switch_model_history c id
    refine ⟨?_, s, hfull⟩
    show _ = rolesOf _
    rw [hconv, hfull, rolesOf_append, hroles, List.append_nil, hInv]
  · intro c p
    exact ⟨rfl, rfl⟩
  · intro c
    exact ⟨rfl, rfl⟩

/-- A file whose body holds one user message and then a line that
passes the marker `startswith` test but lacks the space-terminated
marker prefix, so `line.split('**System: Switched to model: ')[1]`
raises `IndexError` mid-parse. -/
def badLines : List (List Char) :=
  ["---".data, "## User".data, [], "hi".data, [],
   "**System: Switched to model:x**".data]

/-- C8 counterexample: loading `badLines` aborts with the `IndexError`
message, and the resulting state violates the invariant — the partially
parsed user message sits in the full event log while the role-filtered
message list is empty. -/
theorem C8_counterexample :
    (load_conversation sampleBot badLines).1 =
      OpResult.error "Error loading conversation: list index out of range" ∧
    (load_conversation sampleBot badLines).2.full_conversation_history =
      [.message .user "hi"] ∧
    ¬ historyInvariant (load_conversation sampleBot badLines).2 := by
  refine ⟨by decide, by decide, ?_⟩
  intro h
  simp only [historyInvariant] at h
  exact absurd h (by decide)

/-- C8 witness: the theorem's conjuncts applied at concrete states — a
fuzzy model switch, a completed streaming turn and a successful load of
an empty file on the sample session. -/
theorem C8_witness :
    (historyInvariant (switch_model sampleBot "gemini").2 ∧
      ∃ s, (switch_model sampleBot "gemini").2.full_conversation_history =
        sampleBot.full_conversation_history ++ s) ∧
    (historyInvariant
        (get_chat_response_stream sampleBot "hi" (.completes ["ok"] (some 5))).2 ∧
      ∃ s, (get_chat_response_stream sampleBot "hi"
          (.completes ["ok"] (some 5))).2.full_conversation_history =
        sampleBot.full_conversation_history ++ s) ∧
    historyInvariant (load_conversation sampleBot []).2 :=
  ⟨C8_history_invariant.1 sampleBot "gemini" rfl,
   C8_history_invariant.2.1 sampleBot "hi" (.completes ["ok"] (some 5)) rfl,
   C8_history_invariant.2.2.2.2.1 sampleBot []
     ⟨"Loaded conversation (0 messages)", by decide⟩⟩

/-! ### Claim C7 -/

/-- C7 (amended): for a session holding at least one recorded event whose
logged contents survive the markdown format — every message content is
non-empty, strip-stable and free of lines that look like role headings or
switch markers, every switched-to name is newline-free — and whose active
friendly name is a non-empty whitespace-free catalog key, with a
newline-free date, litellm string and system prompt, saving and then
loading the produced file reproduces the role-filtered message list and
the active model friendly name exactly. -/
theorem C7_round_trip (c : Chatbot) (d f n : String)
    (hInv : historyInvariant c)
    (hne : c.full_conversation_history ≠ [])
    (hfr : c.active_model_friendly = some f)
    (hn : c.active_model_name = some n)
    (hf0 : f ≠ "")
    (hfws : ∀ ch ∈ f.data, wsChar ch = false)
    (hkey : f ∈ modelKeys c)
    (hd : '\n' ∉ d.data)
    (hnn : '\n' ∉ n.data)
    (hsp : '\n' ∉ c.system_prompt.data)
    (hWF : ∀ e ∈ c.full_conversation_history, eventWF e) :
    (load_conversation c
        (save_conversation c d).linesOf).2.conversation_history
      = c.conversation_history ∧
    (load_conversation c
        (save_conversation c d).linesOf).2.active_model_friendly
      = some f := by
  have hfn : '\n' ∉ f.data := by
    intro hc
    have := hfws '\n' hc
    simp [wsChar] at this
  have hfdne : f.data ≠ [] := by
    intro hc
    apply hf0
    cases f
    cases hc
    rfl
  have hlines : (save_conversation c d).linesOf =
      fileLines (saveText c d).data := by
    have hA : ¬ c.full_conversation_history.isEmpty := by
      simpa [List.isEmpty_iff] using hne
    simp [save_conversation, hA, SaveResult.linesOf]
  have hshape := savedLines_shape c d f n hfr hn hd hfn hnn hsp hWF
  have htokstart : ∀ l ∈ (if 0 < c.total_tokens_used then
      ["**Total Tokens:** ".data ++ (pyNatStr c.total_tokens_used).data]
    else ([] : List (List Char))),
      startsWithL l "**System Prompt:**".data = false ∧
      startsWithL l "**Model:**".data = false := by
    intro l hl
    by_cases ht : 0 < c.total_tokens_used
    · rw [if_pos ht] at hl
      have hl2 : l = "**Total Tokens:** ".data ++
          (pyNatStr c.total_tokens_used).data := by simpa using hl
      subst hl2
      exact ⟨startsWithL_append_false (by decide) (by decide),
        startsWithL_append_false (by decide) (by decide)⟩
    · rw [if_neg ht] at hl
      simp at hl
  have hsplit : splitHeader (fileLines (saveText c d).data) =
      (["# Chat Conversation".data, [],
        "**Date:** ".data ++ d.data,
        "**Model:** ".data ++ (f.data ++ (" (".data ++ (n.data ++ ")".data))),
        "**System Prompt:** ".data ++ c.system_prompt.data] ++
       (if 0 < c.total_tokens_used then
          ["**Total Tokens:** ".data ++ (pyNatStr c.total_tokens_used).data]
        else []) ++ [[]],
       [[]] ++ c.full_conversation_history.flatMap blockL) := by
    rw [hshape]
    apply splitHeader_marker
    intro l hl
    rcases List.mem_append.mp hl with hl2 | hl2
    · rcases List.mem_append.mp hl2 with hl3 | hl3
      · simp only [List.mem_cons, List.not_mem_nil, or_false] at hl3
        rcases hl3 with h | h | h | h | h
        · subst h; decide
        · subst h; decide
        · subst h
          have hrw : "**Date:** ".data ++ d.data =
              '*' :: ("*Date:** ".data ++ d.data) := rfl
          rw [hrw]
          exact strip_ne_dashes _ (by decide) (by decide)
        · subst h
          have hrw : "**Model:** ".data ++
              (f.data ++ (" (".data ++ (n.data ++ ")".data))) =
              '*' :: ("*Model:** ".data ++
                (f.data ++ (" (".data ++ (n.data ++ ")".data)))) := rfl
          rw [hrw]
          exact strip_ne_dashes _ (by decide) (by decide)
        · subst h
          have hrw : "**System Prompt:** ".data ++ c.system_prompt.data =
              '*' :: ("*System Prompt:** ".data ++ c.system_prompt.data) := rfl
          rw [hrw]
          exact strip_ne_dashes _ (by decide) (by decide)
      · by_cases ht : 0 < c.total_tokens_used
        · rw [if_pos ht] at hl3
          have hl4 : l = "**Total Tokens:** ".data ++
              (pyNatStr c.total_tokens_used).data := by simpa using hl3
          subst hl4
          have hrw : "**Total Tokens:** ".data ++
              (pyNatStr c.total_tokens_used).data =
              '*' :: ("*Total Tokens:** ".data ++
                (pyNatStr c.total_tokens_used).data) := rfl
          rw [hrw]
          exact strip_ne_dashes _ (by decide) (by decide)
        · rw [if_neg ht] at hl3
          simp at hl3
    · have hl4 : l = [] := by simpa using hl2
      subst hl4
      decide
  have hscan := headerScan_saved d.data c.system_prompt.data f.data n.data
    (if 0 < c.total_tokens_used then
      ["**Total Tokens:** ".data ++ (pyNatStr c.total_tokens_used).data]
    else []) hfws hfdne htokstart
  obtain ⟨info, hinfo⟩ :=
    Option.isSome_iff_exists.mp (lookupModel_isSome_of_mem hkey)
  have hinfo2 : lookupModel { (start_new_chat c).2 with
      system_prompt := ⟨stripChars c.system_prompt.data⟩ } ⟨f.data⟩ =
      some info := hinfo
  have hswitch := switch_model_exact _ _ info hinfo2
  have hblocks := processBody_blocks c.full_conversation_history hWF none
    trivial
  simp only [Option.map, pendContent] at hblocks
  obtain ⟨hflag0, hroles0⟩ := hblocks
  have hBd : processBody
      ([[]] ++ c.full_conversation_history.flatMap blockL) none [] =
      processBody (c.full_conversation_history.flatMap blockL) none [] := by
    have h1 : ([[]] ++ c.full_conversation_history.flatMap blockL
        : List (List Char)) = [] :: c.full_conversation_history.flatMap blockL := by
      simp
    rw [h1]
    exact processBody_skip_nil _ _
  have hflag : (processBody
      ([[]] ++ c.full_conversation_history.flatMap blockL) none []).2.2.2
      = false := by
    rw [hBd]; exact hflag0
  have heval := load_conversation_eval c (fileLines (saveText c d).data)
    (["# Chat Conversation".data, [],
      "**Date:** ".data ++ d.data,
      "**Model:** ".data ++ (f.data ++ (" (".data ++ (n.data ++ ")".data))),
      "**System Prompt:** ".data ++ c.system_prompt.data] ++
     (if 0 < c.total_tokens_used then
        ["**Total Tokens:** ".data ++ (pyNatStr c.total_tokens_used).data]
      else []) ++ [[]])
    ([[]] ++ c.full_conversation_history.flatMap blockL)
    (stripChars c.system_prompt.data) f.data _ _
    hsplit hscan hfdne hswitch hflag
  rw [hlines, heval]
  constructor
  · show rolesOf _ = _
    rw [List.append_assoc, rolesOf_append, hBd, hroles0]
    rw [hInv]
    simp [rolesOf, flushP, start_new_chat]
  · rfl

/-- The sample session after one exchange whose assistant message has
empty content (an empty streamed completion): the saved file renders the
assistant section with no body, so the loader's `append_message` skips
it. -/
def c7Bot : Chatbot :=
  { sampleBot with
      conversation_history := [⟨.user, "hi"⟩, ⟨.assistant, ""⟩]
      full_conversation_history :=
        [.message .user "hi", .message .assistant ""] }

set_option maxRecDepth 16000 in
/-- C7 counterexample: `c7Bot` has a recorded exchange and satisfies the
history invariant, yet saving and re-loading it drops the empty-content
assistant message — the loaded role-filtered message list differs from
the original. -/
theorem C7_counterexample :
    c7Bot.full_conversation_history ≠ [] ∧
    historyInvariant c7Bot ∧
    (load_conversation c7Bot
        (save_conversation c7Bot "2026-02-03 04:05:06").linesOf).2.conversation_history
      ≠ c7Bot.conversation_history := by
  have hswitch := switch_model_exact
    { (start_new_chat c7Bot).2 with
        system_prompt := ⟨"You are a helpful assistant.".data⟩ }
    ⟨"gpt120b".data⟩ ⟨"groq/openai/gpt-oss-120b", "Groq", "Default model"⟩
    (by decide)
  have heval := load_conversation_eval c7Bot
    ((save_conversation c7Bot "2026-02-03 04:05:06").linesOf)
    ["# Chat Conversation".data, [],
     "**Date:** 2026-02-03 04:05:06".data,
     "**Model:** gpt120b (groq/openai/gpt-oss-120b)".data,
     "**System Prompt:** You are a helpful assistant.".data, []]
    [[], "## User".data, [], "hi".data, [],
     "## Assistant".data, [], [], []]
    "You are a helpful assistant.".data "gpt120b".data _ _
    (by decide) (by decide) (by decide) hswitch (by decide)
  refine ⟨by decide, rfl, ?_⟩
  rw [heval]
  decide

/-- A well-formed concrete session for the C7 witness. -/
def c7WitBot : Chatbot :=
  { sampleBot with
      conversation_history := [⟨.user, "hi"⟩, ⟨.assistant, "hello there"⟩]
      full_conversation_history :=
        [.message .user "hi", .message .assistant "hello there"]
      total_tokens_used := 42 }

/-- C7 witness: the amended round-trip theorem applied to a concrete
two-message session. -/
theorem C7_witness :
    (load_conversation c7WitBot
        (save_conversation c7WitBot "2026-02-03 04:05:06").linesOf).2.conversation_history
      = c7WitBot.conversation_history ∧
    (load_conversation c7WitBot
        (save_conversation c7WitBot "2026-02-03 04:05:06").linesOf).2.active_model_friendly
      = some "gpt120b" :=
  C7_round_trip c7WitBot "2026-02-03 04:05:06" "gpt120b"
    "groq/openai/gpt-oss-120b" rfl (by decide) rfl rfl (by decide) (by decide)
    (by decide) (by decide) (by decide) (by decide)
    (by
      intro e he
      simp only [c7WitBot, List.mem_cons, List.not_mem_nil, or_false] at he
      rcases he with h | h
      · subst h
        exact ⟨by decide, by decide, by decide⟩
      · subst h
        exact ⟨by decide, by decide, by decide⟩)

end ChatbotSpec
